import Mathlib

/-! The JACK output driver of shairport-sync (`audio_jack.c`).

A shallow embedding of the driver's ring buffer: `start`, `play` (the feed
path) and `output_jack_process` (the render callback), and of `init`, followed
by theorems about them.

Conventions of the embedding.

* The file-scope variables of the driver are the fields of `JackState`.
* A C `int` is an `Int`.  Signed overflow is undefined in C, and a frame
  count whose difference to `frames_to_copy` does not fit an `int` makes the
  following `memcpy` read outside the buffers, so the embedding describes
  every execution of the source that is defined.
* The product `n_out_frames * source_samplerate` is unsigned 32-bit
  arithmetic (`jack_nframes_t`) and is taken modulo `2 ^ 32`.
* A `float` sample is a rational number: the quotient by `SHRT_MAX` is exact.
* The channel buffers are memory indexed by an `int` offset, `Int → ℚ`; what
  `malloc` returns has arbitrary contents, which `start` receives as an
  argument.
* The JACK library and `soxr_oneshot` are outside the driver: the answers of
  the former are a `JackServer` record, the latter is a function argument.
  The libconfig lookups of `init` are a `ConfigFile` record.
* The heap use of the callback is embedded a second time, as the sequence of
  memory operations it executes (`callback_steps`) run on a machine whose
  scratch blocks exist only between `malloc` and `free` (`exec`); `malloc` is
  taken to succeed.
-/

namespace AudioJack

/-! ## Constants -/

/-- Largest value of a 16-bit `short` (`SHRT_MAX` of `limits.h`). -/
def SHRT_MAX : Int := 32767

/-- Smallest value of a 16-bit `short` (`SHRT_MIN` of `limits.h`). -/
def SHRT_MIN : Int := -32768

/-- The source's `#define BUFFER_SIZE_FACTOR 1`. -/
def BUFFER_SIZE_FACTOR : Int := 1

/-! ## State -/

/-- The file-scope variables of `audio_jack.c`.  `client` is `true` when the
pointer `client` is not `NULL`. -/
structure JackState where
  client : Bool
  source_samplerate : Int
  target_samplerate : Int
  output_buffer_1 : Int → ℚ
  output_buffer_2 : Int → ℚ
  output_writep : Int
  output_readp : Int
  output_buffer_size : Int

/-- The state before the first `start`: the initialisers of the file-scope
variables (the cursors are zero-initialised statics). -/
def initial_state : JackState where
  client := false
  source_samplerate := 0
  target_samplerate := 0
  output_buffer_1 := fun _ => 0
  output_buffer_2 := fun _ => 0
  output_writep := 0
  output_readp := 0
  output_buffer_size := 0

/-- Both cursors lie in `[0, output_buffer_size)`. -/
def CursorsInRange (s : JackState) : Prop :=
  0 ≤ s.output_writep ∧ s.output_writep < s.output_buffer_size ∧
  0 ≤ s.output_readp ∧ s.output_readp < s.output_buffer_size

instance (s : JackState) : Decidable (CursorsInRange s) := by
  unfold CursorsInRange; infer_instance

/-! ## `start` -/

/-- What the JACK library answers to the calls `start` makes. -/
structure JackServer where
  /-- `jack_client_open` returned a client. -/
  client_opened : Bool
  /-- both `jack_port_register` calls returned a port. -/
  ports_registered : Bool
  /-- the value `jack_get_sample_rate` leaves in `target_samplerate`. -/
  sample_rate : Int
  /-- `jack_activate` returned 0. -/
  activated : Bool
  /-- `jack_get_ports` returned a port list. -/
  ports_matched : Bool

/-- How `start` ends: the variables at that point, and whether it ended in
`exit (1)` instead of returning. -/
structure StartResult where
  state : JackState
  exited : Bool

/-- `start (sample_rate)`: lines 62-152.  `mem1` and `mem2` are the contents of
the two blocks `malloc` hands out. -/
def start (s : JackState) (sample_rate : Int) (jack : JackServer)
    (mem1 mem2 : Int → ℚ) : StartResult :=
  let s1 : JackState :=
    { s with
      source_samplerate := sample_rate
      output_buffer_size := sample_rate * BUFFER_SIZE_FACTOR
      output_buffer_1 := mem1
      output_buffer_2 := mem2
      output_writep := 0
      output_readp := 0 }
  if s.client then
    { state := s1, exited := false }
  else if !jack.client_opened then
    { state := s1, exited := false }
  else
    let s2 : JackState := { s1 with client := true }
    if !jack.ports_registered then
      { state := s2, exited := true }
    else
      let s3 : JackState := { s2 with target_samplerate := jack.sample_rate }
      if !jack.activated then
        { state := s3, exited := true }
      else if !jack.ports_matched then
        { state := s3, exited := true }
      else
        { state := s3, exited := false }

/-! ## `play` -/

/-- The conversion `(float)buf[k] / (float)SHRT_MAX` of lines 263-269. -/
def sample_to_float (x : Int) : ℚ := (x : ℚ) / (SHRT_MAX : ℚ)

/-- The body shared by the two `for` loops of `play`: `k` iterations storing
frame `j` of `buf` at index `i`, then `i++, j++`. -/
def play_loop (buf : Nat → Int) :
    Nat → Int → Nat → (Int → ℚ) × (Int → ℚ) → (Int → ℚ) × (Int → ℚ)
  | 0, _, _, b => b
  | k + 1, i, j, b =>
    play_loop buf k (i + 1) (j + 1)
      (Function.update b.1 i (sample_to_float (buf (j * 2))),
       Function.update b.2 i (sample_to_float (buf (j * 2 + 1))))

/-- The first overrun check of `play` (lines 238-246, "buffer overrun1!"). -/
def play_overrun1 (s : JackState) (samples : Int) : Prop :=
  s.output_writep + samples ≥ s.output_buffer_size ∧
  (s.output_readp > s.output_writep ∨
   s.output_readp < samples - (s.output_buffer_size - s.output_writep))

/-- The second overrun check of `play` (lines 247-251, "buffer overrun2!"). -/
def play_overrun2 (s : JackState) (samples : Int) : Prop :=
  ¬ (s.output_writep + samples ≥ s.output_buffer_size) ∧
  s.output_writep < s.output_readp ∧
  s.output_writep + samples > s.output_readp

/-- One of the two overrun checks of `play` fires. -/
def play_overrun (s : JackState) (samples : Int) : Prop :=
  play_overrun1 s samples ∨ play_overrun2 s samples

instance (s : JackState) (samples : Int) : Decidable (play_overrun1 s samples) := by
  unfold play_overrun1; infer_instance

instance (s : JackState) (samples : Int) : Decidable (play_overrun2 s samples) := by
  unfold play_overrun2; infer_instance

instance (s : JackState) (samples : Int) : Decidable (play_overrun s samples) := by
  unfold play_overrun; infer_instance

/-- Lines 253-278 of `play`: the split copy and the advance of
`output_writep`. -/
def play_store (s : JackState) (buf : Nat → Int) (samples : Int) : JackState :=
  let frames_to_copy : Int :=
    if s.output_writep + samples > s.output_buffer_size then
      s.output_buffer_size - s.output_writep
    else samples
  let remain : Int :=
    if s.output_writep + samples > s.output_buffer_size then
      samples - (s.output_buffer_size - s.output_writep)
    else 0
  let head := play_loop buf frames_to_copy.toNat s.output_writep 0
    (s.output_buffer_1, s.output_buffer_2)
  let tail := play_loop buf remain.toNat 0 frames_to_copy.toNat head
  let writep : Int :=
    if remain ≠ 0 then remain
    else if s.output_writep + samples = s.output_buffer_size then 0
    else s.output_writep + samples
  { s with
    output_buffer_1 := tail.1
    output_buffer_2 := tail.2
    output_writep := writep }

/-- `play (buf, samples)`: lines 231-279.  An overrun returns before anything
is stored. -/
def play (s : JackState) (buf : Nat → Int) (samples : Int) : JackState :=
  if s.output_writep + samples ≥ s.output_buffer_size then
    let frames_to_copy := s.output_buffer_size - s.output_writep
    let remain := samples - frames_to_copy
    if s.output_readp > s.output_writep ∨ s.output_readp < remain then s
    else play_store s buf samples
  else if s.output_writep < s.output_readp ∧
      s.output_writep + samples > s.output_readp then s
  else play_store s buf samples

/-! ## `output_jack_process` -/

/-- Conversion of an `int` to the 32-bit unsigned `jack_nframes_t`. -/
def to_uint32 (x : Int) : Nat := (x % 2 ^ 32).toNat

/-- Lines 159-160: `(size_t)(n_out_frames * source_samplerate /
target_samplerate + 0.5)`.  The product and the quotient are unsigned 32-bit;
the quotient becomes a `double`, `0.5` is added and the cast truncates. -/
def needed_source_frames (n_out_frames : Nat) (source_samplerate target_samplerate : Int) :
    Nat :=
  let quotient : Nat :=
    (n_out_frames * to_uint32 source_samplerate) % 2 ^ 32 / to_uint32 target_samplerate
  (Int.floor ((quotient : ℚ) + 1 / 2)).toNat

/-- `soxr_oneshot (irate, orate, 1, in, ilen, NULL, out, olen, &odone, ...)` as a
function: input rate, output rate, the `ilen` input samples, `olen`, the
previous contents of `out`; the value is the contents of `out` afterwards. -/
abbrev Resampler := Int → Int → List ℚ → Nat → List ℚ → List ℚ

/-- `memcpy (dst, src + start, count * sizeof (float))` as the list of the
`count` samples copied. -/
def memcpy_frames (src : Int → ℚ) (start : Int) (count : Int) : List ℚ :=
  (List.range count.toNat).map fun (k : Nat) => src (start + (k : Int))

/-- What one call of the render callback leaves behind: the variables, the two
destination (port) buffers, and the scratch arrays `out1`, `out2` handed to
`soxr_oneshot` (`none` when the callback returned before reaching it). -/
structure RenderResult where
  state : JackState
  jack_out1 : List ℚ
  jack_out2 : List ℚ
  resampled : Option (List ℚ × List ℚ)

/-- The first underrun check (lines 167-177, "buffer underrun1!"). -/
def render_underrun1 (s : JackState) (nframes : Nat) : Prop :=
  s.output_readp + (nframes : Int) ≥ s.output_buffer_size ∧
  (s.output_writep > s.output_readp ∨
   s.output_writep < (nframes : Int) - (s.output_buffer_size - s.output_readp))

/-- The second underrun check (lines 178-183, "buffer underrun2!"). -/
def render_underrun2 (s : JackState) (nframes : Nat) : Prop :=
  ¬ (s.output_readp + (nframes : Int) ≥ s.output_buffer_size) ∧
  s.output_readp < s.output_writep ∧
  s.output_readp + (nframes : Int) > s.output_writep

/-- One of the two underrun checks of the callback fires. -/
def render_underrun (s : JackState) (nframes : Nat) : Prop :=
  render_underrun1 s nframes ∨ render_underrun2 s nframes

instance (s : JackState) (nframes : Nat) : Decidable (render_underrun1 s nframes) := by
  unfold render_underrun1; infer_instance

instance (s : JackState) (nframes : Nat) : Decidable (render_underrun2 s nframes) := by
  unfold render_underrun2; infer_instance

instance (s : JackState) (nframes : Nat) : Decidable (render_underrun s nframes) := by
  unfold render_underrun; infer_instance

/-- Lines 185-228: the split copy into `out1`/`out2`, the advance of
`output_readp`, and the two `soxr_oneshot` calls. -/
def render_copy (soxr : Resampler) (s : JackState) (n_out_frames nframes : Nat)
    (jack_out1 jack_out2 : List ℚ) : RenderResult :=
  let wraps : Prop := s.output_readp + (nframes : Int) > s.output_buffer_size
  let frames_to_copy : Int := s.output_buffer_size - s.output_readp
  let remain : Int := (nframes : Int) - frames_to_copy
  let out1 : List ℚ :=
    if wraps then
      memcpy_frames s.output_buffer_1 s.output_readp frames_to_copy ++
        memcpy_frames s.output_buffer_1 0 remain
    else memcpy_frames s.output_buffer_1 s.output_readp nframes
  let out2 : List ℚ :=
    if wraps then
      memcpy_frames s.output_buffer_2 s.output_readp frames_to_copy ++
        memcpy_frames s.output_buffer_2 0 remain
    else memcpy_frames s.output_buffer_2 s.output_readp nframes
  let readp : Int :=
    if wraps then remain
    else if s.output_readp + (nframes : Int) = s.output_buffer_size then 0
    else s.output_readp + (nframes : Int)
  { state := { s with output_readp := readp }
    jack_out1 := soxr s.source_samplerate s.target_samplerate out1 n_out_frames jack_out1
    jack_out2 := soxr s.source_samplerate s.target_samplerate out2 n_out_frames jack_out2
    resampled := some (out1, out2) }

/-- Lines 162-228 of `output_jack_process`, as a function of the frame count
`nframes` computed in lines 159-160.  An underrun returns 0 before anything is
read. -/
def process_frames (soxr : Resampler) (s : JackState) (n_out_frames nframes : Nat)
    (jack_out1 jack_out2 : List ℚ) : RenderResult :=
  let untouched : RenderResult :=
    { state := s, jack_out1 := jack_out1, jack_out2 := jack_out2, resampled := none }
  if s.output_readp + (nframes : Int) ≥ s.output_buffer_size then
    let frames_to_copy := s.output_buffer_size - s.output_readp
    let remain := (nframes : Int) - frames_to_copy
    if s.output_writep > s.output_readp ∨ s.output_writep < remain then untouched
    else render_copy soxr s n_out_frames nframes jack_out1 jack_out2
  else if s.output_readp < s.output_writep ∧
      s.output_readp + (nframes : Int) > s.output_writep then untouched
  else render_copy soxr s n_out_frames nframes jack_out1 jack_out2

/-- `output_jack_process (n_out_frames, arg)`: lines 154-229.  `jack_out1` and
`jack_out2` are the port buffers `jack_port_get_buffer` returns, with their
contents before the call. -/
def output_jack_process (soxr : Resampler) (s : JackState) (n_out_frames : Nat)
    (jack_out1 jack_out2 : List ℚ) : RenderResult :=
  process_frames soxr s n_out_frames
    (needed_source_frames n_out_frames s.source_samplerate s.target_samplerate)
    jack_out1 jack_out2

/-- Largest value of a 32-bit `int` (`INT_MAX` of `limits.h`), the type of
`source_samplerate` and `target_samplerate`. -/
def INT_MAX : Int := 2147483647

/-! ## The callback as a sequence of memory operations -/

/-- Which of the two channels an operation works on: `one` stands for `out1`,
`output_buffer_1` and `jack_out1`, `two` for `out2`, `output_buffer_2` and
`jack_out2`. -/
inductive Side where
  | one
  | two
  deriving DecidableEq

/-- The operations of lines 185-226 of the callback.
`malloc side count` is `out = malloc (count * sizeof (float))`;
`memcpy side offset start count` is
`memcpy (out + offset, output_buffer + start, count * sizeof (float))`;
`set_readp value` is an assignment to `output_readp`;
`soxr_oneshot side` is the call resampling `out` into `jack_out`;
`free side` is `free (out)`. -/
inductive Step where
  | malloc (side : Side) (count : Nat)
  | memcpy (side : Side) (offset start count : Int)
  | set_readp (value : Int)
  | soxr_oneshot (side : Side)
  | free (side : Side)
  deriving DecidableEq

/-- Lines 185-226 as the operations executed, in order. -/
def copy_steps (s : JackState) (nframes : Nat) : List Step :=
  let frames_to_copy : Int := s.output_buffer_size - s.output_readp
  let remain : Int := (nframes : Int) - frames_to_copy
  [Step.malloc Side.one nframes, Step.malloc Side.two nframes] ++
  (if s.output_readp + (nframes : Int) > s.output_buffer_size then
    [Step.memcpy Side.one 0 s.output_readp frames_to_copy,
     Step.memcpy Side.one frames_to_copy 0 remain,
     Step.memcpy Side.two 0 s.output_readp frames_to_copy,
     Step.memcpy Side.two frames_to_copy 0 remain,
     Step.set_readp remain]
  else
    [Step.memcpy Side.one 0 s.output_readp nframes,
     Step.memcpy Side.two 0 s.output_readp nframes,
     Step.set_readp (s.output_readp + (nframes : Int))] ++
    (if s.output_readp + (nframes : Int) = s.output_buffer_size then [Step.set_readp 0]
     else [])) ++
  [Step.soxr_oneshot Side.one, Step.soxr_oneshot Side.two,
   Step.free Side.one, Step.free Side.two]

/-- Lines 167-226 as the operations executed: an underrun returns before the
first of them. -/
def callback_steps (s : JackState) (nframes : Nat) : List Step :=
  if s.output_readp + (nframes : Int) ≥ s.output_buffer_size then
    let frames_to_copy := s.output_buffer_size - s.output_readp
    let remain := (nframes : Int) - frames_to_copy
    if s.output_writep > s.output_readp ∨ s.output_writep < remain then []
    else copy_steps s nframes
  else if s.output_readp < s.output_writep ∧
      s.output_readp + (nframes : Int) > s.output_writep then []
  else copy_steps s nframes

/-- The memory the callback works on: the driver's variables, the heap blocks
behind `out1` and `out2` (`none` while not allocated; an allocated block is a
list of samples, each `none` until it is written), the two port buffers, and
the arrays the resampler has been given. -/
structure Machine where
  state : JackState
  out1 : Option (List (Option ℚ))
  out2 : Option (List (Option ℚ))
  jack_out1 : List ℚ
  jack_out2 : List ℚ
  given1 : Option (List ℚ)
  given2 : Option (List ℚ)

/-- The machine on entry to the callback: nothing allocated, nothing
resampled. -/
def Machine.entry (s : JackState) (jack_out1 jack_out2 : List ℚ) : Machine where
  state := s
  out1 := none
  out2 := none
  jack_out1 := jack_out1
  jack_out2 := jack_out2
  given1 := none
  given2 := none

/-- What the machine leaves behind, in the form `process_frames` reports. -/
def Machine.result (m : Machine) : RenderResult where
  state := m.state
  jack_out1 := m.jack_out1
  jack_out2 := m.jack_out2
  resampled :=
    match m.given1, m.given2 with
    | some a, some b => some (a, b)
    | _, _ => none

/-- The heap block behind `out1` or `out2`. -/
def Machine.scratch (m : Machine) : Side → Option (List (Option ℚ))
  | Side.one => m.out1
  | Side.two => m.out2

/-- Assignment to the heap block behind `out1` or `out2`. -/
def Machine.set_scratch (m : Machine) (block : Option (List (Option ℚ))) : Side → Machine
  | Side.one => { m with out1 := block }
  | Side.two => { m with out2 := block }

/-- The channel buffer `output_buffer_1` or `output_buffer_2`. -/
def channel (s : JackState) : Side → Int → ℚ
  | Side.one => s.output_buffer_1
  | Side.two => s.output_buffer_2

/-- A block after `data` has been copied to its offset `offset`. -/
def write_block (block : List (Option ℚ)) (offset : Nat) (data : List ℚ) :
    List (Option ℚ) :=
  block.take offset ++ data.map some ++ block.drop (offset + data.length)

/-- The samples of a block, when every one of them has been written. -/
def initialised : List (Option ℚ) → Option (List ℚ)
  | [] => some []
  | none :: _ => none
  | some x :: rest => (initialised rest).map fun xs => x :: xs

/-- One operation.  `none` is a memory error: a copy to a block that is not
allocated or outside it, a copy from outside the channel buffer, a resampler
call on a block that is not allocated or not fully written, a `free` of a
block that is not allocated. -/
def exec_step (soxr : Resampler) (n_out_frames : Nat) (m : Machine) : Step → Option Machine
  | Step.malloc side count => some (m.set_scratch (some (List.replicate count none)) side)
  | Step.memcpy side offset start count =>
    match m.scratch side with
    | none => none
    | some block =>
      if 0 ≤ offset ∧ 0 ≤ count ∧ offset + count ≤ (block.length : Int) ∧
          0 ≤ start ∧ start + count ≤ m.state.output_buffer_size then
        some (m.set_scratch
          (some (write_block block offset.toNat (memcpy_frames (channel m.state side) start count)))
          side)
      else none
  | Step.set_readp value => some { m with state := { m.state with output_readp := value } }
  | Step.soxr_oneshot side =>
    match m.scratch side with
    | none => none
    | some block =>
      match initialised block with
      | none => none
      | some samples =>
        match side with
        | Side.one =>
          some { m with
            jack_out1 := soxr m.state.source_samplerate m.state.target_samplerate samples
              n_out_frames m.jack_out1
            given1 := some samples }
        | Side.two =>
          some { m with
            jack_out2 := soxr m.state.source_samplerate m.state.target_samplerate samples
              n_out_frames m.jack_out2
            given2 := some samples }
  | Step.free side =>
    match m.scratch side with
    | none => none
    | some _ => some (m.set_scratch none side)

/-- A sequence of operations, stopping at the first memory error. -/
def exec (soxr : Resampler) (n_out_frames : Nat) : List Step → Machine → Option Machine
  | [], m => some m
  | st :: rest, m => (exec_step soxr n_out_frames m st).bind (exec soxr n_out_frames rest)

/-- The operation is a copy or a cursor assignment. -/
def Step.copies : Step → Bool
  | Step.memcpy _ _ _ _ => true
  | Step.set_readp _ => true
  | _ => false

/-! ## `init` -/

/-- What libconfig answers to the three lookups of `init` in the parsed
configuration file: `none` when the lookup returns false. -/
structure ConfigFile where
  /-- `config_lookup_string (config.cfg, "jack.portname", &str)`. -/
  portname : Option String
  /-- `config_lookup_int` of `jack.audio_backend_buffer_desired_length`. -/
  audio_backend_buffer_desired_length : Option Int
  /-- `config_lookup_int` of `jack.audio_backend_latency_offset`. -/
  audio_backend_latency_offset : Option Int

/-- The fields of shairport's global `config` that `init` reads or writes;
`cfg` is `none` when `config.cfg` is `NULL`. -/
structure Config where
  cfg : Option ConfigFile
  audio_backend_buffer_desired_length : Int
  audio_backend_latency_offset : Int

/-- How `init` ends: in `die`, or by returning `value` with the `config` and
the `portspec` it leaves. -/
inductive InitResult where
  | died
  | returned (value : Int) (config : Config) (portspec : Option String)

/-- Modelled from the spec: `die` is declared in `common.h` and defined outside
`audio_jack.c`; an out-of-range value is "a fatal configuration error" and
"initialization-time errors terminate the process", so `die` does not
return. -/
def die : InitResult := InitResult.died

/-- `init (argc, argv)`: lines 285-325.  `argv` holds the `argc` arguments. -/
def init (config : Config) (portspec : Option String) (argv : List String) : InitResult :=
  let config0 : Config :=
    { config with
      audio_backend_buffer_desired_length := 44100
      audio_backend_latency_offset := 0 }
  let finish (c : Config) (p : Option String) : InitResult :=
    InitResult.returned 0 c (if argv.length = 1 then argv.head? else p)
  match config.cfg with
  | none => finish config0 portspec
  | some file =>
    let portspec1 : Option String :=
      match file.portname with
      | some str => some str
      | none => portspec
    match file.audio_backend_buffer_desired_length with
    | some value =>
      if value < 0 ∨ value > 132300 then die
      else
        let config1 : Config := { config0 with audio_backend_buffer_desired_length := value }
        match file.audio_backend_latency_offset with
        | some value =>
          if value < -66150 ∨ value > 66150 then die
          else finish { config1 with audio_backend_latency_offset := value } portspec1
        | none => finish config1 portspec1
    | none =>
      match file.audio_backend_latency_offset with
      | some value =>
        if value < -66150 ∨ value > 66150 then die
        else finish { config0 with audio_backend_latency_offset := value } portspec1
      | none => finish config0 portspec1

/-- The buffer length the configuration file sets, if any. -/
def configured_length (config : Config) : Option Int :=
  config.cfg.bind fun file => file.audio_backend_buffer_desired_length

/-- The latency offset the configuration file sets, if any. -/
def configured_offset (config : Config) : Option Int :=
  config.cfg.bind fun file => file.audio_backend_latency_offset

/-- An empty configuration file setting only the two integers given. -/
def config_with (length offset : Option Int) : Config where
  cfg := some
    { portname := none
      audio_backend_buffer_desired_length := length
      audio_backend_latency_offset := offset }
  audio_backend_buffer_desired_length := 0
  audio_backend_latency_offset := 0

/-! ## Sequences of calls -/

/-- One call into the driver after `start`: the feeder's `play (buf, samples)`
or the JACK clock's `output_jack_process (n_out_frames, arg)`. -/
inductive Call where
  | feed (buf : Nat → Int) (samples : Int)
  | render (n_out_frames : Nat)

/-- The driver's variables together with the bookkeeping of the no-overlap
property: the frames `play` has accepted and the frames the callback has
copied out so far. -/
structure Ledger where
  state : JackState
  accepted : Int
  consumed : Int

/-- One call, under the code's own overrun and underrun checks: a block that
passes both overrun checks counts as accepted, a render that passes both
underrun checks counts as consumed. -/
def step (soxr : Resampler) (l : Ledger) : Call → Ledger
  | Call.feed buf samples =>
    { state := play l.state buf samples
      accepted := if play_overrun l.state samples then l.accepted else l.accepted + samples
      consumed := l.consumed }
  | Call.render n_out_frames =>
    let nframes :=
      needed_source_frames n_out_frames l.state.source_samplerate l.state.target_samplerate
    { state := (output_jack_process soxr l.state n_out_frames [] []).state
      accepted := l.accepted
      consumed :=
        if render_underrun l.state nframes then l.consumed else l.consumed + (nframes : Int) }

/-- A sequence of calls, from the state `start` leaves. -/
def run (soxr : Resampler) (s : JackState) (calls : List Call) : Ledger :=
  calls.foldl (step soxr) { state := s, accepted := 0, consumed := 0 }

/-- Frames accepted and not yet consumed. -/
def Ledger.buffered (l : Ledger) : Int := l.accepted - l.consumed

/-! ## Concrete states -/

/-- A JACK server that accepts the client and runs at `rate`. -/
def server (rate : Int) : JackServer where
  client_opened := true
  ports_registered := true
  sample_rate := rate
  activated := true
  ports_matched := true

/-- A started driver with the given capacity and cursors, both rates equal to
the capacity and silent buffers. -/
def ring (size writep readp : Int) : JackState where
  client := true
  source_samplerate := size
  target_samplerate := size
  output_buffer_1 := fun _ => 0
  output_buffer_2 := fun _ => 0
  output_writep := writep
  output_readp := readp
  output_buffer_size := size

/-- A resampler that copies its input through (equal rates). -/
def passthrough : Resampler := fun _ _ input _ _ => input

end AudioJack

namespace AudioJack

/-! ## Basic facts about the embedding -/

theorem floor_add_half (q : Nat) : Int.floor ((q : ℚ) + 1 / 2) = (q : Int) := by
  rw [Int.floor_eq_iff]
  constructor
  · push_cast; linarith
  · push_cast; linarith

theorem needed_source_frames_eq (n : Nat) (src tgt : Int) :
    needed_source_frames n src tgt = (n * to_uint32 src) % 2 ^ 32 / to_uint32 tgt := by
  unfold needed_source_frames
  simp only [floor_add_half, Int.toNat_ofNat]

theorem play_eq (s : JackState) (buf : Nat → Int) (samples : Int) :
    play s buf samples = if play_overrun s samples then s else play_store s buf samples := by
  unfold play play_overrun play_overrun1 play_overrun2
  by_cases h1 : s.output_writep + samples ≥ s.output_buffer_size
  · by_cases h2 : s.output_readp > s.output_writep ∨
        s.output_readp < samples - (s.output_buffer_size - s.output_writep)
    · simp [h1, h2]
    · simp only [h1, h2, if_true, if_false, and_false, not_true_eq_false, false_and, or_self]
  · by_cases h3 : s.output_writep < s.output_readp ∧ s.output_writep + samples > s.output_readp
    · simp [h1, h3]
    · simp only [h1, h3, if_false, false_and, not_false_eq_true, true_and, or_self]

theorem process_frames_eq (soxr : Resampler) (s : JackState) (n_out nframes : Nat)
    (d1 d2 : List ℚ) :
    process_frames soxr s n_out nframes d1 d2 =
      if render_underrun s nframes then
        { state := s, jack_out1 := d1, jack_out2 := d2, resampled := none }
      else render_copy soxr s n_out nframes d1 d2 := by
  unfold process_frames render_underrun render_underrun1 render_underrun2
  by_cases h1 : s.output_readp + (nframes : Int) ≥ s.output_buffer_size
  · by_cases h2 : s.output_writep > s.output_readp ∨
        s.output_writep < (nframes : Int) - (s.output_buffer_size - s.output_readp)
    · simp [h1, h2]
    · simp only [h1, h2, if_true, if_false, and_false, not_true_eq_false, false_and, or_self]
  · by_cases h3 : s.output_readp < s.output_writep ∧
        s.output_readp + (nframes : Int) > s.output_writep
    · simp [h1, h3]
    · simp only [h1, h3, if_false, false_and, not_false_eq_true, true_and, or_self]

end AudioJack

namespace AudioJack

/-! ## The two loops of `play` -/

theorem play_loop_fst (buf : Nat → Int) (k : Nat) (i : Int) (j : Nat)
    (b : (Int → ℚ) × (Int → ℚ)) (x : Int) :
    (play_loop buf k i j b).1 x =
      if i ≤ x ∧ x < i + (k : Int) then sample_to_float (buf ((j + (x - i).toNat) * 2))
      else b.1 x := by
  induction k generalizing i j b with
  | zero =>
    have h : ¬ (i ≤ x ∧ x < i + ((0 : Nat) : Int)) := by
      push_cast; omega
    simp only [play_loop, h, if_false]
  | succ k ih =>
    rw [play_loop, ih]
    by_cases hx : x = i
    · subst hx
      have h1 : ¬ (x + 1 ≤ x ∧ x < x + 1 + (k : Int)) := by omega
      have h2 : x ≤ x ∧ x < x + ((k + 1 : Nat) : Int) := by push_cast; omega
      simp only [h1, h2, if_false, if_true, Function.update_same, sub_self, Int.toNat_zero,
        add_zero, and_self]
    · by_cases hr : i + 1 ≤ x ∧ x < i + 1 + (k : Int)
      · have h2 : i ≤ x ∧ x < i + ((k + 1 : Nat) : Int) := by push_cast; omega
        have h3 : j + 1 + (x - (i + 1)).toNat = j + (x - i).toNat := by omega
        simp only [hr, h2, if_true, h3, and_self]
      · have h2 : ¬ (i ≤ x ∧ x < i + ((k + 1 : Nat) : Int)) := by push_cast; omega
        simp only [hr, h2, if_false, Function.update_noteq hx]

theorem play_loop_snd (buf : Nat → Int) (k : Nat) (i : Int) (j : Nat)
    (b : (Int → ℚ) × (Int → ℚ)) (x : Int) :
    (play_loop buf k i j b).2 x =
      if i ≤ x ∧ x < i + (k : Int) then sample_to_float (buf ((j + (x - i).toNat) * 2 + 1))
      else b.2 x := by
  induction k generalizing i j b with
  | zero =>
    have h : ¬ (i ≤ x ∧ x < i + ((0 : Nat) : Int)) := by
      push_cast; omega
    simp only [play_loop, h, if_false]
  | succ k ih =>
    rw [play_loop, ih]
    by_cases hx : x = i
    · subst hx
      have h1 : ¬ (x + 1 ≤ x ∧ x < x + 1 + (k : Int)) := by omega
      have h2 : x ≤ x ∧ x < x + ((k + 1 : Nat) : Int) := by push_cast; omega
      simp only [h1, h2, if_false, if_true, Function.update_same, sub_self, Int.toNat_zero,
        add_zero, and_self]
    · by_cases hr : i + 1 ≤ x ∧ x < i + 1 + (k : Int)
      · have h2 : i ≤ x ∧ x < i + ((k + 1 : Nat) : Int) := by push_cast; omega
        have h3 : j + 1 + (x - (i + 1)).toNat = j + (x - i).toNat := by omega
        simp only [hr, h2, if_true, h3, and_self]
      · have h2 : ¬ (i ≤ x ∧ x < i + ((k + 1 : Nat) : Int)) := by push_cast; omega
        simp only [hr, h2, if_false, Function.update_noteq hx]

theorem memcpy_frames_eq (src : Int → ℚ) (start count : Int) (g : Nat → ℚ)
    (h : ∀ k : Nat, (k : Int) < count → src (start + (k : Int)) = g k) :
    memcpy_frames src start count = (List.range count.toNat).map g := by
  unfold memcpy_frames
  apply List.map_congr_left
  intro k hk
  apply h
  have := List.mem_range.mp hk
  omega

/-! ## What `play_store` and `render_copy` do -/

theorem play_store_buffer_1 (s : JackState) (buf : Nat → Int) (samples : Int) (x : Int) :
    (play_store s buf samples).output_buffer_1 x =
      if s.output_writep + samples > s.output_buffer_size then
        if 0 ≤ x ∧ x < samples - (s.output_buffer_size - s.output_writep) then
          sample_to_float
            (buf (((s.output_buffer_size - s.output_writep).toNat + x.toNat) * 2))
        else if s.output_writep ≤ x ∧ x < s.output_buffer_size then
          sample_to_float (buf ((x - s.output_writep).toNat * 2))
        else s.output_buffer_1 x
      else if s.output_writep ≤ x ∧ x < s.output_writep + samples then
        sample_to_float (buf ((x - s.output_writep).toNat * 2))
      else s.output_buffer_1 x := by
  unfold play_store
  simp only [play_loop_fst]
  by_cases hw : s.output_writep + samples > s.output_buffer_size
  · simp only [hw, if_true, zero_add, sub_zero]
    have e1 : (0 ≤ x ∧ x < ((samples - (s.output_buffer_size - s.output_writep)).toNat : Int)) ↔
        (0 ≤ x ∧ x < samples - (s.output_buffer_size - s.output_writep)) := by omega
    have e2 : (s.output_writep ≤ x ∧
        x < s.output_writep + ((s.output_buffer_size - s.output_writep).toNat : Int)) ↔
        (s.output_writep ≤ x ∧ x < s.output_buffer_size) := by omega
    simp only [e1, e2]
  · simp only [hw, if_false, zero_add, sub_zero, Int.toNat_zero, Nat.cast_zero]
    have e1 : ¬ (0 ≤ x ∧ x < (0 : Int)) := by omega
    have e2 : (s.output_writep ≤ x ∧ x < s.output_writep + (samples.toNat : Int)) ↔
        (s.output_writep ≤ x ∧ x < s.output_writep + samples) := by omega
    simp only [e1, e2, if_false]

theorem play_store_buffer_2 (s : JackState) (buf : Nat → Int) (samples : Int) (x : Int) :
    (play_store s buf samples).output_buffer_2 x =
      if s.output_writep + samples > s.output_buffer_size then
        if 0 ≤ x ∧ x < samples - (s.output_buffer_size - s.output_writep) then
          sample_to_float
            (buf (((s.output_buffer_size - s.output_writep).toNat + x.toNat) * 2 + 1))
        else if s.output_writep ≤ x ∧ x < s.output_buffer_size then
          sample_to_float (buf ((x - s.output_writep).toNat * 2 + 1))
        else s.output_buffer_2 x
      else if s.output_writep ≤ x ∧ x < s.output_writep + samples then
        sample_to_float (buf ((x - s.output_writep).toNat * 2 + 1))
      else s.output_buffer_2 x := by
  unfold play_store
  simp only [play_loop_snd]
  by_cases hw : s.output_writep + samples > s.output_buffer_size
  · simp only [hw, if_true, zero_add, sub_zero]
    have e1 : (0 ≤ x ∧ x < ((samples - (s.output_buffer_size - s.output_writep)).toNat : Int)) ↔
        (0 ≤ x ∧ x < samples - (s.output_buffer_size - s.output_writep)) := by omega
    have e2 : (s.output_writep ≤ x ∧
        x < s.output_writep + ((s.output_buffer_size - s.output_writep).toNat : Int)) ↔
        (s.output_writep ≤ x ∧ x < s.output_buffer_size) := by omega
    simp only [e1, e2]
  · simp only [hw, if_false, zero_add, sub_zero, Int.toNat_zero, Nat.cast_zero]
    have e1 : ¬ (0 ≤ x ∧ x < (0 : Int)) := by omega
    have e2 : (s.output_writep ≤ x ∧ x < s.output_writep + (samples.toNat : Int)) ↔
        (s.output_writep ≤ x ∧ x < s.output_writep + samples) := by omega
    simp only [e1, e2, if_false]

theorem play_store_writep (s : JackState) (buf : Nat → Int) (samples : Int) :
    (play_store s buf samples).output_writep =
      if s.output_writep + samples > s.output_buffer_size then
        samples - (s.output_buffer_size - s.output_writep)
      else if s.output_writep + samples = s.output_buffer_size then 0
      else s.output_writep + samples := by
  unfold play_store
  by_cases hw : s.output_writep + samples > s.output_buffer_size
  · have h0 : samples - (s.output_buffer_size - s.output_writep) ≠ 0 := by omega
    simp only [hw, if_true, h0, ne_eq, not_false_eq_true]
  · simp only [hw, if_false, ne_eq, not_true_eq_false]

theorem play_store_readp (s : JackState) (buf : Nat → Int) (samples : Int) :
    (play_store s buf samples).output_readp = s.output_readp := rfl

theorem play_store_size (s : JackState) (buf : Nat → Int) (samples : Int) :
    (play_store s buf samples).output_buffer_size = s.output_buffer_size := rfl

/-- The scratch array `render_copy` fills from one channel buffer. -/
theorem render_copy_scratch (b : Int → ℚ) (readp size : Int) (nframes : Nat) (g : Nat → ℚ)
    (h0 : 0 ≤ readp) (hlt : readp < size)
    (hg : ∀ k : Nat, k < nframes → b ((readp + (k : Int)) % size) = g k)
    (hn : (nframes : Int) ≤ size) :
    (if readp + (nframes : Int) > size then
        memcpy_frames b readp (size - readp) ++
          memcpy_frames b 0 ((nframes : Int) - (size - readp))
      else memcpy_frames b readp nframes) = (List.range nframes).map g := by
  by_cases hw : readp + (nframes : Int) > size
  · simp only [hw, if_true]
    have hsplit : nframes = (size - readp).toNat + ((nframes : Int) - (size - readp)).toNat := by
      omega
    rw [memcpy_frames_eq b readp (size - readp) g, memcpy_frames_eq b 0
      ((nframes : Int) - (size - readp)) (fun k => g ((size - readp).toNat + k))]
    · conv_rhs => rw [hsplit, List.range_add, List.map_append, List.map_map]
      rfl
    · intro k hk
      have hk2 : (size - readp).toNat + k < nframes := by omega
      rw [← hg _ hk2]
      congr 1
      have e : readp + (((size - readp).toNat + k : Nat) : Int) = (k : Int) + size := by
        push_cast; omega
      rw [e, Int.add_emod_self, Int.emod_eq_of_lt (by omega) (by omega)]
      omega
    · intro k hk
      have hk2 : k < nframes := by omega
      rw [← hg _ hk2, Int.emod_eq_of_lt (by omega) (by omega)]
  · simp only [hw, if_false]
    rw [memcpy_frames_eq b readp nframes g]
    · simp
    · intro k hk
      have hk2 : k < nframes := by omega
      rw [← hg _ hk2]
      by_cases hz : readp + (k : Int) < size
      · rw [Int.emod_eq_of_lt (by omega) hz]
      · omega

theorem play_store_ring_1 (s : JackState) (buf : Nat → Int) (samples : Int) (j : Nat)
    (h0 : 0 ≤ s.output_writep) (hlt : s.output_writep < s.output_buffer_size)
    (hn : samples ≤ s.output_buffer_size) (hj : (j : Int) < samples) :
    (play_store s buf samples).output_buffer_1
        ((s.output_writep + (j : Int)) % s.output_buffer_size) =
      sample_to_float (buf (j * 2)) := by
  rw [play_store_buffer_1]
  by_cases hx : s.output_writep + (j : Int) < s.output_buffer_size
  · rw [Int.emod_eq_of_lt (by omega) hx]
    have e1 : ¬ (0 ≤ s.output_writep + (j : Int) ∧ s.output_writep + (j : Int) <
        samples - (s.output_buffer_size - s.output_writep)) := by omega
    have e2 : s.output_writep ≤ s.output_writep + (j : Int) ∧
        s.output_writep + (j : Int) < s.output_buffer_size := by omega
    have e3 : s.output_writep ≤ s.output_writep + (j : Int) ∧
        s.output_writep + (j : Int) < s.output_writep + samples := by omega
    have e4 : (s.output_writep + (j : Int) - s.output_writep).toNat = j := by omega
    simp only [e1, e2, e3, e4, if_true, if_false, and_self, ite_self]
  · have e : s.output_writep + (j : Int) =
        (s.output_writep + (j : Int) - s.output_buffer_size) + s.output_buffer_size := by omega
    rw [e, Int.add_emod_self, Int.emod_eq_of_lt (by omega) (by omega)]
    have hw : s.output_writep + samples > s.output_buffer_size := by omega
    have e1 : 0 ≤ s.output_writep + (j : Int) - s.output_buffer_size ∧
        s.output_writep + (j : Int) - s.output_buffer_size <
          samples - (s.output_buffer_size - s.output_writep) := by omega
    have e4 : (s.output_buffer_size - s.output_writep).toNat +
        (s.output_writep + (j : Int) - s.output_buffer_size).toNat = j := by omega
    simp only [hw, e1, e4, if_true, and_self]

theorem play_store_ring_2 (s : JackState) (buf : Nat → Int) (samples : Int) (j : Nat)
    (h0 : 0 ≤ s.output_writep) (hlt : s.output_writep < s.output_buffer_size)
    (hn : samples ≤ s.output_buffer_size) (hj : (j : Int) < samples) :
    (play_store s buf samples).output_buffer_2
        ((s.output_writep + (j : Int)) % s.output_buffer_size) =
      sample_to_float (buf (j * 2 + 1)) := by
  rw [play_store_buffer_2]
  by_cases hx : s.output_writep + (j : Int) < s.output_buffer_size
  · rw [Int.emod_eq_of_lt (by omega) hx]
    have e1 : ¬ (0 ≤ s.output_writep + (j : Int) ∧ s.output_writep + (j : Int) <
        samples - (s.output_buffer_size - s.output_writep)) := by omega
    have e2 : s.output_writep ≤ s.output_writep + (j : Int) ∧
        s.output_writep + (j : Int) < s.output_buffer_size := by omega
    have e3 : s.output_writep ≤ s.output_writep + (j : Int) ∧
        s.output_writep + (j : Int) < s.output_writep + samples := by omega
    have e4 : (s.output_writep + (j : Int) - s.output_writep).toNat = j := by omega
    simp only [e1, e2, e3, e4, if_true, if_false, and_self, ite_self]
  · have e : s.output_writep + (j : Int) =
        (s.output_writep + (j : Int) - s.output_buffer_size) + s.output_buffer_size := by omega
    rw [e, Int.add_emod_self, Int.emod_eq_of_lt (by omega) (by omega)]
    have hw : s.output_writep + samples > s.output_buffer_size := by omega
    have e1 : 0 ≤ s.output_writep + (j : Int) - s.output_buffer_size ∧
        s.output_writep + (j : Int) - s.output_buffer_size <
          samples - (s.output_buffer_size - s.output_writep) := by omega
    have e4 : (s.output_buffer_size - s.output_writep).toNat +
        (s.output_writep + (j : Int) - s.output_buffer_size).toNat = j := by omega
    simp only [hw, e1, e4, if_true, and_self]

theorem sample_to_float_eq (x : Int) : sample_to_float x = (x : ℚ) / 32767 := by
  simp [sample_to_float, SHRT_MAX]

/-- Feeding `S` frames at equal cursors and rendering `S` frames: neither check
fires and the scratch arrays hold the block, channel by channel. -/
theorem round_trip_scratch (soxr : Resampler) (s : JackState) (buf : Nat → Int)
    (S n_out : Nat) (d1 d2 : List ℚ)
    (hO : 0 ≤ s.output_writep) (hC : s.output_writep < s.output_buffer_size)
    (hr : s.output_readp = s.output_writep) (hS : (S : Int) ≤ s.output_buffer_size) :
    ¬ play_overrun s S ∧ ¬ render_underrun (play s buf S) S ∧
    (process_frames soxr (play s buf S) n_out S d1 d2).resampled =
      some ((List.range S).map (fun j => (buf (2 * j) : ℚ) / 32767),
            (List.range S).map (fun j => (buf (2 * j + 1) : ℚ) / 32767)) := by
  have hov : ¬ play_overrun s S := by
    unfold play_overrun play_overrun1 play_overrun2
    omega
  have hplay : play s buf S = play_store s buf S := by
    rw [play_eq, if_neg hov]
  have hw := play_store_writep s buf S
  have hun : ¬ render_underrun (play_store s buf S) S := by
    unfold render_underrun render_underrun1 render_underrun2
    rw [play_store_readp, play_store_size, hw]
    split_ifs <;> omega
  refine ⟨hov, by rw [hplay]; exact hun, ?_⟩
  rw [hplay, process_frames_eq, if_neg hun]
  simp only [render_copy, play_store_readp, play_store_size]
  rw [render_copy_scratch _ _ _ _ (fun j => (buf (2 * j) : ℚ) / 32767) (by omega) (by omega)
      _ hS,
    render_copy_scratch _ _ _ _ (fun j => (buf (2 * j + 1) : ℚ) / 32767) (by omega) (by omega)
      _ hS]
  · intro k hk
    rw [hr, play_store_ring_2 s buf S k hO hC hS (by omega), sample_to_float_eq, mul_comm]
  · intro k hk
    rw [hr, play_store_ring_1 s buf S k hO hC hS (by omega), sample_to_float_eq, mul_comm]

/-- With distinct cursors in range, a request for more frames than
`(output_writep - output_readp) mod output_buffer_size` fires an underrun
check. -/
theorem render_underrun_of_distinct (s : JackState) (nframes : Nat) (hs : CursorsInRange s)
    (hne : s.output_writep ≠ s.output_readp)
    (hn : (nframes : Int) > (s.output_writep - s.output_readp) % s.output_buffer_size) :
    render_underrun s nframes := by
  unfold CursorsInRange at hs
  unfold render_underrun render_underrun1 render_underrun2
  by_cases hlt : s.output_readp < s.output_writep
  · rw [Int.emod_eq_of_lt (by omega) (by omega)] at hn
    omega
  · have e : s.output_writep - s.output_readp =
        (s.output_writep - s.output_readp + s.output_buffer_size) +
          -1 * s.output_buffer_size := by
      ring
    rw [e, Int.add_mul_emod_self, Int.emod_eq_of_lt (by omega) (by omega)] at hn
    omega

/-- The frame count of lines 159-160 as an integer expression: the wrapped
product divided by the target rate as an unsigned 32-bit value. -/
theorem needed_source_frames_int (n : Nat) (src tgt : Int) :
    ((needed_source_frames n src tgt : Nat) : Int) =
      ((n : Int) * src) % 2 ^ 32 / (tgt % 2 ^ 32) := by
  rw [needed_source_frames_eq]
  have hs : ((to_uint32 src : Nat) : Int) = src % 2 ^ 32 := by
    unfold to_uint32
    exact Int.toNat_of_nonneg (Int.emod_nonneg _ (by norm_num))
  have ht : ((to_uint32 tgt : Nat) : Int) = tgt % 2 ^ 32 := by
    unfold to_uint32
    exact Int.toNat_of_nonneg (Int.emod_nonneg _ (by norm_num))
  have key : ((n : Int) * (src % 2 ^ 32)) % 2 ^ 32 = ((n : Int) * src) % 2 ^ 32 :=
    Int.ModEq.mul_left _ (Int.mod_modEq src _)
  have hp : (((2 ^ 32 : Nat)) : Int) = 2 ^ 32 := by norm_num
  rw [Int.natCast_div, Int.natCast_mod, Nat.cast_mul, hs, ht, hp, key]

/-- The distance from cursor `a` back to cursor `b` around a buffer of `size`,
for cursors in range. -/
theorem cursor_gap (a b size : Int) (ha0 : 0 ≤ a) (ha : a < size) (hb0 : 0 ≤ b)
    (hb : b < size) :
    (a - b) % size = if b ≤ a then a - b else a - b + size := by
  by_cases h : b ≤ a
  · rw [if_pos h, Int.emod_eq_of_lt (by omega) (by omega)]
  · rw [if_neg h]
    have e : a - b = (a - b + size) + -1 * size := by ring
    rw [e, Int.add_mul_emod_self, Int.emod_eq_of_lt (by omega) (by omega)]
    ring

/-! ## The memory operations of the callback -/

theorem memcpy_frames_length (src : Int → ℚ) (start count : Int) :
    (memcpy_frames src start count).length = count.toNat := by
  simp [memcpy_frames]

theorem write_block_fresh (n : Nat) (data : List ℚ) :
    write_block (List.replicate n none) 0 data =
      data.map some ++ List.replicate (n - data.length) none := by
  simp [write_block]

theorem write_block_after (k off : Nat) (done data : List ℚ) (hoff : off = done.length) :
    write_block (done.map some ++ List.replicate k none) off data =
      (done ++ data).map some ++ List.replicate (k - data.length) none := by
  subst hoff
  simp [write_block, List.take_append_eq_append_take, List.drop_append_eq_append_drop]

theorem initialised_map (data : List ℚ) : initialised (data.map some) = some data := by
  induction data with
  | nil => rfl
  | cons x xs ih => simp [initialised, ih]

theorem initialised_map_some (data : List ℚ) :
    initialised (data.map some ++ List.replicate 0 none) = some data := by
  rw [List.replicate_zero, List.append_nil, initialised_map]

/-- The operations of an accepted callback run without a memory error, leave
what `render_copy` computes and free both blocks. -/
theorem exec_copy_steps (soxr : Resampler) (s : JackState) (n_out nframes : Nat)
    (d1 d2 : List ℚ) (hs : CursorsInRange s) (hu : ¬ render_underrun s nframes) :
    ∃ m, exec soxr n_out (copy_steps s nframes) (Machine.entry s d1 d2) = some m ∧
      m.result = render_copy soxr s n_out nframes d1 d2 ∧ m.out1 = none ∧ m.out2 = none := by
  unfold CursorsInRange at hs
  unfold render_underrun render_underrun1 render_underrun2 at hu
  by_cases hw : s.output_readp + (nframes : Int) > s.output_buffer_size
  · have c1 : (0 : Int) ≤ 0 ∧ 0 ≤ s.output_buffer_size - s.output_readp ∧
        0 + (s.output_buffer_size - s.output_readp) ≤ (nframes : Int) ∧
        0 ≤ s.output_readp ∧
        s.output_readp + (s.output_buffer_size - s.output_readp) ≤ s.output_buffer_size := by
      omega
    have c2 : 0 ≤ s.output_buffer_size - s.output_readp ∧
        0 ≤ (nframes : Int) - (s.output_buffer_size - s.output_readp) ∧
        s.output_buffer_size - s.output_readp +
          ((nframes : Int) - (s.output_buffer_size - s.output_readp)) ≤ (nframes : Int) ∧
        (0 : Int) ≤ 0 ∧
        0 + ((nframes : Int) - (s.output_buffer_size - s.output_readp)) ≤
          s.output_buffer_size := by
      omega
    have hlen : (s.output_buffer_size - s.output_readp).toNat +
        (nframes - (s.output_buffer_size - s.output_readp).toNat) = nframes := by
      omega
    have hz : nframes - (s.output_buffer_size - s.output_readp).toNat -
        ((nframes : Int) - (s.output_buffer_size - s.output_readp)).toNat = 0 := by
      omega
    have hoff : ∀ b : Int → ℚ, (s.output_buffer_size - s.output_readp).toNat =
        (memcpy_frames b s.output_readp (s.output_buffer_size - s.output_readp)).length := by
      intro b; rw [memcpy_frames_length]
    simp only [copy_steps, if_pos hw, List.cons_append, List.nil_append,
      List.append_assoc, List.append_eq,
      exec, exec_step, Machine.entry, Machine.set_scratch, Machine.scratch, Option.some_bind,
      channel, List.length_replicate, if_pos c1, Int.toNat_zero, write_block_fresh,
      memcpy_frames_length, List.length_append, List.length_map, hlen, if_pos c2,
      write_block_after _ _ _ _ (hoff _), hz, initialised_map_some]
    refine ⟨_, rfl, ?_, rfl, rfl⟩
    simp only [Machine.result, render_copy, if_pos hw]
  · have c1 : (0 : Int) ≤ 0 ∧ 0 ≤ (nframes : Int) ∧ 0 + (nframes : Int) ≤ (nframes : Int) ∧
        0 ≤ s.output_readp ∧ s.output_readp + (nframes : Int) ≤ s.output_buffer_size := by
      omega
    by_cases he : s.output_readp + (nframes : Int) = s.output_buffer_size
    · simp only [copy_steps, if_neg hw, if_pos he, List.cons_append, List.nil_append,
        List.append_assoc, List.append_eq,
        exec, exec_step, Machine.entry, Machine.set_scratch, Machine.scratch, Option.some_bind,
        channel, List.length_replicate, if_pos c1, Int.toNat_zero, write_block_fresh,
        memcpy_frames_length, Int.toNat_ofNat, Nat.sub_self, initialised_map_some]
      refine ⟨_, rfl, ?_, rfl, rfl⟩
      simp only [Machine.result, render_copy, if_neg hw, if_pos he]
    · simp only [copy_steps, if_neg hw, if_neg he, List.cons_append, List.nil_append,
        List.append_assoc, List.append_eq,
        exec, exec_step, Machine.entry, Machine.set_scratch, Machine.scratch, Option.some_bind,
        channel, List.length_replicate, if_pos c1, Int.toNat_zero, write_block_fresh,
        memcpy_frames_length, Int.toNat_ofNat, Nat.sub_self, initialised_map_some]
      refine ⟨_, rfl, ?_, rfl, rfl⟩
      simp only [Machine.result, render_copy, if_neg hw, if_neg he]

theorem callback_steps_eq (s : JackState) (nframes : Nat) :
    callback_steps s nframes = if render_underrun s nframes then [] else copy_steps s nframes := by
  unfold callback_steps render_underrun render_underrun1 render_underrun2
  by_cases h1 : s.output_readp + (nframes : Int) ≥ s.output_buffer_size
  · by_cases h2 : s.output_writep > s.output_readp ∨
        s.output_writep < (nframes : Int) - (s.output_buffer_size - s.output_readp)
    · simp [h1, h2]
    · simp only [h1, h2, if_true, if_false, and_false, not_true_eq_false, false_and, or_self]
  · by_cases h3 : s.output_readp < s.output_writep ∧
        s.output_readp + (nframes : Int) > s.output_writep
    · simp [h1, h3]
    · simp only [h1, h3, if_false, false_and, not_false_eq_true, true_and, or_self]

/-! ## The claims -/

/-- C1, no-overlap invariant, evaluated on the code.  Right after `start (4)`
nothing has been fed, yet a render of one frame passes both underrun checks:
the frames accepted minus the frames consumed is `-1`, and the frame handed to
the resampler is what `malloc` left at index 0.  In the other direction two
blocks of 4 frames are both accepted with nothing consumed in between, so 8
frames are counted in a buffer of 4 and the second block has overwritten the
first. -/
theorem no_overlap_fails_on_equal_cursors (mem1 mem2 : Int → ℚ) :
    (run passthrough (start initial_state 4 (server 4) mem1 mem2).state
        [Call.render 1]).buffered = -1 ∧
    (output_jack_process passthrough (start initial_state 4 (server 4) mem1 mem2).state
        1 [] []).resampled = some ([mem1 0], [mem2 0]) ∧
    (run passthrough (start initial_state 4 (server 4) mem1 mem2).state
        [Call.feed (fun _ => 1) 4, Call.feed (fun _ => 2) 4]).buffered = 8 := by
  refine ⟨?_, ?_, ?_⟩
  · simp [run, step, Ledger.buffered, start, initial_state, server, needed_source_frames_eq,
      to_uint32, render_underrun, render_underrun1, render_underrun2, BUFFER_SIZE_FACTOR]
  · simp [output_jack_process, process_frames_eq, render_copy, memcpy_frames, start,
      initial_state, server, needed_source_frames_eq, to_uint32, render_underrun,
      render_underrun1, render_underrun2, BUFFER_SIZE_FACTOR, List.range_succ]
  · simp [run, step, Ledger.buffered, start, initial_state, server, play_eq, play_store,
      play_overrun, play_overrun1, play_overrun2, BUFFER_SIZE_FACTOR]

/-- C2, underrun yields silence, evaluated on the code.  Right after
`start (4)` the cursors are equal, so no frame is buffered, and a callback
for one output frame needs one source frame; the callback does not return
early: `output_readp` becomes 1 and both destination buffers are written by
the resampler, from the uninitialised sample at index 0. -/
theorem render_on_empty_buffer_reads (soxr : Resampler) (mem1 mem2 : Int → ℚ)
    (d1 d2 : List ℚ) :
    ((start initial_state 4 (server 4) mem1 mem2).state.output_writep -
        (start initial_state 4 (server 4) mem1 mem2).state.output_readp) %
      (start initial_state 4 (server 4) mem1 mem2).state.output_buffer_size = 0 ∧
    needed_source_frames 1 4 4 = 1 ∧
    (output_jack_process soxr (start initial_state 4 (server 4) mem1 mem2).state
        1 d1 d2).state.output_readp = 1 ∧
    (output_jack_process soxr (start initial_state 4 (server 4) mem1 mem2).state
        1 d1 d2).resampled = some ([mem1 0], [mem2 0]) ∧
    (output_jack_process soxr (start initial_state 4 (server 4) mem1 mem2).state
        1 d1 d2).jack_out1 = soxr 4 4 [mem1 0] 1 d1 ∧
    (output_jack_process soxr (start initial_state 4 (server 4) mem1 mem2).state
        1 d1 d2).jack_out2 = soxr 4 4 [mem2 0] 1 d2 := by
  refine ⟨?_, ?_, ?_, ?_, ?_, ?_⟩ <;>
  simp [output_jack_process, process_frames_eq, render_copy, memcpy_frames, start,
    initial_state, server, needed_source_frames_eq, to_uint32, render_underrun,
    render_underrun1, render_underrun2, BUFFER_SIZE_FACTOR, List.range_succ]

/-- C3, round-half-up frame count, evaluated on the code.  For source 44100,
target 44101 and 2 requested frames the callback computes 1 source frame: the
quotient `88200 / 44101` is an integer division, so adding `0.5` afterwards
rounds nothing.  Rounding the exact quotient half up gives 2. -/
theorem needed_source_frames_truncates :
    needed_source_frames 2 44100 44101 = 1 ∧
    Int.floor ((2 : ℚ) * 44100 / 44101 + 1 / 2) = 2 := by
  constructor
  · rw [needed_source_frames_eq]; decide
  · rw [Int.floor_eq_iff]; norm_num

/-- C4, wrap round trip.  With both cursors at the same offset of a buffer of
capacity `C > 0` and a block of `S ≤ C` frames, `play` accepts the block, the
following render of `S` source frames is not an underrun, and the arrays
handed to the resampler hold `block[2j] / 32767` (left) and
`block[2j+1] / 32767` (right) for `j < S`, in order, wrapping or not; this is
what the same block gives at offset 0 of any buffer `s0` larger than `S`. -/
theorem wrap_round_trip (soxr : Resampler) (s s0 : JackState) (buf : Nat → Int)
    (S n_out : Nat) (d1 d2 : List ℚ)
    (hO : 0 ≤ s.output_writep) (hC : s.output_writep < s.output_buffer_size)
    (hr : s.output_readp = s.output_writep) (hS : (S : Int) ≤ s.output_buffer_size)
    (hw0 : s0.output_writep = 0) (hr0 : s0.output_readp = 0)
    (hS0 : (S : Int) < s0.output_buffer_size) :
    ¬ play_overrun s S ∧ ¬ render_underrun (play s buf S) S ∧
    (process_frames soxr (play s buf S) n_out S d1 d2).resampled =
      some ((List.range S).map (fun j => (buf (2 * j) : ℚ) / 32767),
            (List.range S).map (fun j => (buf (2 * j + 1) : ℚ) / 32767)) ∧
    (process_frames soxr (play s buf S) n_out S d1 d2).resampled =
      (process_frames soxr (play s0 buf S) n_out S d1 d2).resampled := by
  obtain ⟨h1, h2, h3⟩ := round_trip_scratch soxr s buf S n_out d1 d2 hO hC hr hS
  obtain ⟨_, _, h4⟩ := round_trip_scratch soxr s0 buf S n_out d1 d2 (by omega) (by omega)
    (by omega) (by omega)
  exact ⟨h1, h2, h3, by rw [h3, h4]⟩

/-- A block of 3 frames written at offset 3 of a buffer of 4 wraps, and reads
back as at offset 0 of a buffer of 8. -/
theorem wrap_round_trip_witness :
    (process_frames passthrough (play (ring 4 3 3) (fun k => (k : Int)) 3) 3 3 [] []).resampled =
      some ((List.range 3).map (fun j => (((2 * j : Nat) : Int) : ℚ) / 32767),
            (List.range 3).map (fun j => (((2 * j + 1 : Nat) : Int) : ℚ) / 32767)) ∧
    (process_frames passthrough (play (ring 4 3 3) (fun k => (k : Int)) 3) 3 3 [] []).resampled =
      (process_frames passthrough (play (ring 8 0 0) (fun k => (k : Int)) 3) 3 3 [] []).resampled :=
  (wrap_round_trip passthrough (ring 4 3 3) (ring 8 0 0) (fun k => (k : Int)) 3 3 [] []
    (by decide) (by decide) rfl (by decide) rfl rfl (by decide)).2.2

/-- C5, overrun drops the whole block.  When either overrun check of `play`
fires, the state after the call is the state before it: both cursors, the
capacity and every sample of both channel buffers are unchanged. -/
theorem overrun_drops_block (s : JackState) (buf : Nat → Int) (samples : Int)
    (h : play_overrun s samples) : play s buf samples = s := by
  rw [play_eq, if_pos h]

/-- With `output_writep = 2`, `output_readp = 5` and capacity 10, a block of 4
frames would pass the read cursor: it is dropped. -/
theorem overrun_drops_block_witness :
    play_overrun (ring 10 2 5) 4 ∧ play (ring 10 2 5) (fun _ => 1) 4 = ring 10 2 5 :=
  ⟨by decide, overrun_drops_block (ring 10 2 5) (fun _ => 1) 4 (by decide)⟩

/-- C6 as stated fails at the sample `-32768`: `play` stores
`-32768 / 32767` for it, which is below `-1`. -/
theorem normalised_minimum_below_range :
    (play (ring 4 0 0) (fun _ => -32768) 1).output_buffer_1 0 = sample_to_float (-32768) ∧
    sample_to_float (-32768) = -32768 / 32767 ∧
    ¬ (-1 ≤ sample_to_float (-32768) ∧ sample_to_float (-32768) ≤ 1) := by
  refine ⟨?_, ?_, ?_⟩
  · rw [play_eq, if_neg (by decide), play_store_buffer_1]
    simp [ring]
  · rw [sample_to_float_eq]; norm_num
  · rw [sample_to_float_eq]; norm_num

/-- C6, amended.  For every signed 16-bit sample `x` the value `play` stores,
`x / SHRT_MAX`, lies in `[-32768/32767, 1]`; it lies in `[-1, 1]` exactly when
`x ≥ -32767`. -/
theorem sample_to_float_range (x : Int) (hlo : -32768 ≤ x) (hhi : x ≤ 32767) :
    -32768 / 32767 ≤ sample_to_float x ∧ sample_to_float x ≤ 1 ∧
    (-1 ≤ sample_to_float x ↔ -32767 ≤ x) := by
  rw [sample_to_float_eq]
  have h1 : (-32768 : ℚ) ≤ (x : ℚ) := by exact_mod_cast hlo
  have h2 : (x : ℚ) ≤ 32767 := by exact_mod_cast hhi
  refine ⟨?_, ?_, ?_⟩
  · rw [div_le_div_iff_of_pos_right (by norm_num)]; exact h1
  · rw [div_le_one (by norm_num)]; exact h2
  · rw [le_div_iff₀ (by norm_num)]
    constructor
    · intro h
      have h3 : ((-32767 : Int) : ℚ) ≤ (x : ℚ) := by push_cast; linarith
      exact_mod_cast h3
    · intro h
      have h3 : ((-32767 : Int) : ℚ) ≤ (x : ℚ) := by exact_mod_cast h
      push_cast at h3; linarith

/-- The sample `-32767` is stored as exactly `-1`. -/
theorem sample_to_float_range_witness :
    -32768 / 32767 ≤ sample_to_float (-32767) ∧ sample_to_float (-32767) ≤ 1 ∧
    (-1 ≤ sample_to_float (-32767) ↔ (-32767 : Int) ≤ -32767) :=
  sample_to_float_range (-32767) (by decide) (by decide)

/-- C7, cursor range invariant.  With a positive sample rate both cursors are
in `[0, output_buffer_size)` after `start`; from a state whose cursors are in
range they are in range again after `play` with any frame count `≥ 0` and
after the callback with any needed frame count, whether the call passes its
checks or not. -/
theorem cursor_range_invariant (soxr : Resampler) (s0 s : JackState) (rate : Int)
    (jack : JackServer) (mem1 mem2 : Int → ℚ) (buf : Nat → Int) (samples : Int)
    (n_out nframes : Nat) (d1 d2 : List ℚ)
    (hrate : 0 < rate) (hn : 0 ≤ samples) (hs : CursorsInRange s) :
    CursorsInRange (start s0 rate jack mem1 mem2).state ∧
    CursorsInRange (play s buf samples) ∧
    CursorsInRange (process_frames soxr s n_out nframes d1 d2).state ∧
    CursorsInRange (output_jack_process soxr s n_out d1 d2).state := by
  have hrender : ∀ n : Nat, CursorsInRange (process_frames soxr s n_out n d1 d2).state := by
    intro n
    rw [process_frames_eq]
    by_cases hu : render_underrun s n
    · rw [if_pos hu]; exact hs
    · rw [if_neg hu]
      unfold render_underrun render_underrun1 render_underrun2 at hu
      unfold CursorsInRange at hs ⊢
      simp only [render_copy]
      split_ifs <;> omega
  refine ⟨?_, ?_, hrender nframes, hrender _⟩
  · unfold start CursorsInRange
    split_ifs <;> simp [BUFFER_SIZE_FACTOR, hrate]
  · rw [play_eq]
    by_cases ho : play_overrun s samples
    · rw [if_pos ho]; exact hs
    · rw [if_neg ho]
      unfold play_overrun play_overrun1 play_overrun2 at ho
      unfold CursorsInRange at hs ⊢
      rw [play_store_writep, play_store_readp, play_store_size]
      split_ifs <;> omega

/-- A block of 7 frames offered to a buffer of 4 and a render of 9 frames both
leave the cursors in range. -/
theorem cursor_range_invariant_witness :
    CursorsInRange (start initial_state 4 (server 4) (fun _ => 0) (fun _ => 0)).state ∧
    CursorsInRange (play (ring 4 3 1) (fun _ => 1) 7) ∧
    CursorsInRange (process_frames passthrough (ring 4 3 1) 9 9 [] []).state ∧
    CursorsInRange (output_jack_process passthrough (ring 4 3 1) 9 [] []).state :=
  cursor_range_invariant passthrough initial_state (ring 4 3 1) 4 (server 4) (fun _ => 0)
    (fun _ => 0) (fun _ => 1) 7 9 9 [] [] (by decide) (by decide) (by decide)

/-- C8, partial-drain scenario.  From a freshly started buffer of capacity `C`
(both cursors 0), with `w < C`, `r < w` and `r2 > w - r` (so in particular for
`0 < w < C` and `0 < r < w`): `play` of `w`
frames is accepted and leaves `output_writep = w`; a render needing `r` source
frames is not an underrun, reaches the resampler and sets `output_readp = r`;
a following render needing `r2` source frames is an underrun that leaves
`output_readp = r`, does not reach the resampler and leaves both destination
buffers as they were. -/
theorem partial_drain_scenario (soxr : Resampler) (s0 : JackState) (jack : JackServer)
    (mem1 mem2 : Int → ℚ) (buf : Nat → Int) (C : Int) (w r r2 n1 n2 : Nat)
    (d1 d2 d3 d4 : List ℚ)
    (hwC : (w : Int) < C) (hrw : r < w) (hr2 : (r2 : Int) > (w : Int) - (r : Int)) :
    ¬ play_overrun (start s0 C jack mem1 mem2).state w ∧
    (play (start s0 C jack mem1 mem2).state buf w).output_writep = w ∧
    ¬ render_underrun (play (start s0 C jack mem1 mem2).state buf w) r ∧
    (process_frames soxr (play (start s0 C jack mem1 mem2).state buf w)
        n1 r d1 d2).resampled.isSome = true ∧
    (process_frames soxr (play (start s0 C jack mem1 mem2).state buf w)
        n1 r d1 d2).state.output_readp = r ∧
    render_underrun (process_frames soxr (play (start s0 C jack mem1 mem2).state buf w)
        n1 r d1 d2).state r2 ∧
    process_frames soxr
        (process_frames soxr (play (start s0 C jack mem1 mem2).state buf w) n1 r d1 d2).state
        n2 r2 d3 d4 =
      { state := (process_frames soxr (play (start s0 C jack mem1 mem2).state buf w)
          n1 r d1 d2).state
        jack_out1 := d3
        jack_out2 := d4
        resampled := none } := by
  have hst : ∀ t : JackState, (start s0 C jack mem1 mem2).state = t →
      t.output_writep = 0 ∧ t.output_readp = 0 ∧ t.output_buffer_size = C := by
    intro t ht
    subst ht
    unfold start
    split_ifs <;> simp [BUFFER_SIZE_FACTOR]
  generalize (start s0 C jack mem1 mem2).state = s1 at hst ⊢
  obtain ⟨hw1, hr1, hC1⟩ := hst s1 rfl
  have hov : ¬ play_overrun s1 w := by
    unfold play_overrun play_overrun1 play_overrun2
    omega
  have hplay : play s1 buf w = play_store s1 buf w := by rw [play_eq, if_neg hov]
  have hwp : (play_store s1 buf w).output_writep = w := by
    rw [play_store_writep]
    split_ifs <;> omega
  have hun : ¬ render_underrun (play_store s1 buf w) r := by
    unfold render_underrun render_underrun1 render_underrun2
    rw [play_store_readp, play_store_size, hwp]
    omega
  have hrp : (render_copy soxr (play_store s1 buf w) n1 r d1 d2).state.output_readp = r := by
    simp only [render_copy, play_store_readp, play_store_size]
    split_ifs <;> omega
  have hwp2 : (render_copy soxr (play_store s1 buf w) n1 r d1 d2).state.output_writep = w := hwp
  have hsz2 : (render_copy soxr (play_store s1 buf w) n1 r d1 d2).state.output_buffer_size
      = C := hC1
  have hun2 : render_underrun (render_copy soxr (play_store s1 buf w) n1 r d1 d2).state r2 := by
    unfold render_underrun render_underrun1 render_underrun2
    rw [hrp, hwp2, hsz2]
    omega
  rw [hplay, process_frames_eq soxr (play_store s1 buf w), if_neg hun]
  refine ⟨hov, hwp, hun, rfl, hrp, hun2, ?_⟩
  rw [process_frames_eq, if_pos hun2]

/-- The scenario of the specification: capacity 100, 60 frames of
`(0.5, -0.5)` (16384 and -16384 before normalisation) written, 50 rendered,
then a second render of 50 with only 10 left. -/
theorem partial_drain_scenario_witness :
    (play (start initial_state 100 (server 100) (fun _ => 0) (fun _ => 0)).state
        (fun k => if k % 2 = 0 then 16384 else -16384) 60).output_writep = 60 ∧
    (process_frames passthrough
        (play (start initial_state 100 (server 100) (fun _ => 0) (fun _ => 0)).state
          (fun k => if k % 2 = 0 then 16384 else -16384) 60)
        50 50 [] []).state.output_readp = 50 ∧
    process_frames passthrough
        (process_frames passthrough
          (play (start initial_state 100 (server 100) (fun _ => 0) (fun _ => 0)).state
            (fun k => if k % 2 = 0 then 16384 else -16384) 60)
          50 50 [] []).state
        50 50 [] [] =
      { state := (process_frames passthrough
          (play (start initial_state 100 (server 100) (fun _ => 0) (fun _ => 0)).state
            (fun k => if k % 2 = 0 then 16384 else -16384) 60)
          50 50 [] []).state
        jack_out1 := []
        jack_out2 := []
        resampled := none } :=
  have h := partial_drain_scenario passthrough initial_state (server 100) (fun _ => 0)
    (fun _ => 0) (fun k => if k % 2 = 0 then 16384 else -16384) 100 60 50 50 50 50 [] [] [] []
    (by decide) (by decide) (by decide)
  ⟨h.2.1, h.2.2.2.2.1, h.2.2.2.2.2.2⟩

/-- C9, cursor advance.  From a state whose cursors are in
`[0, output_buffer_size)`, a `play` call of `samples ≥ 0` frames that passes
both overrun checks sets `output_writep` to
`(output_writep + samples) mod output_buffer_size`, and a callback needing
`nframes` source frames that passes both underrun checks sets `output_readp`
to `(output_readp + nframes) mod output_buffer_size`. -/
theorem cursor_advance (soxr : Resampler) (s : JackState) (buf : Nat → Int) (samples : Int)
    (n_out nframes : Nat) (d1 d2 : List ℚ) (hs : CursorsInRange s) (hn : 0 ≤ samples) :
    (¬ play_overrun s samples →
      (play s buf samples).output_writep =
        (s.output_writep + samples) % s.output_buffer_size) ∧
    (¬ render_underrun s nframes →
      (process_frames soxr s n_out nframes d1 d2).state.output_readp =
        (s.output_readp + (nframes : Int)) % s.output_buffer_size) := by
  unfold CursorsInRange at hs
  constructor
  · intro ho
    rw [play_eq, if_neg ho, play_store_writep]
    unfold play_overrun play_overrun1 play_overrun2 at ho
    split_ifs with h1 h2
    · have e : s.output_writep + samples =
          (samples - (s.output_buffer_size - s.output_writep)) + s.output_buffer_size := by
        omega
      rw [e, Int.add_emod_self, Int.emod_eq_of_lt (by omega) (by omega)]
    · rw [h2, Int.emod_self]
    · rw [Int.emod_eq_of_lt (by omega) (by omega)]
  · intro hu
    rw [process_frames_eq, if_neg hu]
    unfold render_underrun render_underrun1 render_underrun2 at hu
    simp only [render_copy]
    split_ifs with h1 h2
    · have e : s.output_readp + (nframes : Int) =
          ((nframes : Int) - (s.output_buffer_size - s.output_readp)) +
            s.output_buffer_size := by
        omega
      rw [e, Int.add_emod_self, Int.emod_eq_of_lt (by omega) (by omega)]
    · rw [h2, Int.emod_self]
    · rw [Int.emod_eq_of_lt (by omega) (by omega)]

/-- Capacity 10, `output_writep = 8`, `output_readp = 5`: 4 frames are accepted
and wrap the write cursor to 2; with the cursors exchanged, 4 frames are
rendered and wrap the read cursor to 2. -/
theorem cursor_advance_witness :
    (play (ring 10 8 5) (fun _ => 1) 4).output_writep = 2 ∧
    (process_frames passthrough (ring 10 5 8) 4 4 [] []).state.output_readp = 2 :=
  ⟨(cursor_advance passthrough (ring 10 8 5) (fun _ => 1) 4 4 4 [] [] (by decide)
      (by decide)).1 (by decide),
   (cursor_advance passthrough (ring 10 5 8) (fun _ => 1) 4 4 4 [] [] (by decide)
      (by decide)).2 (by decide)⟩

/-- C10, start resets the buffer.  Whatever the state before and whatever the
JACK library answers, when `start (r)` ends both cursors are 0, the capacity
and the source rate are `r` and the channel buffers are the two fresh
allocations; when a client is already open it stays open, `start` returns
without calling the library and the target rate is unchanged. -/
theorem start_resets (s : JackState) (r : Int) (jack : JackServer) (mem1 mem2 : Int → ℚ) :
    (start s r jack mem1 mem2).state.output_writep = 0 ∧
    (start s r jack mem1 mem2).state.output_readp = 0 ∧
    (start s r jack mem1 mem2).state.output_buffer_size = r ∧
    (start s r jack mem1 mem2).state.source_samplerate = r ∧
    (start s r jack mem1 mem2).state.output_buffer_1 = mem1 ∧
    (start s r jack mem1 mem2).state.output_buffer_2 = mem2 ∧
    (s.client = true →
      (start s r jack mem1 mem2).state.client = true ∧
      (start s r jack mem1 mem2).state.target_samplerate = s.target_samplerate ∧
      (start s r jack mem1 mem2).exited = false) := by
  unfold start
  refine ⟨?_, ?_, ?_, ?_, ?_, ?_, ?_⟩
  · split_ifs <;> rfl
  · split_ifs <;> rfl
  · split_ifs <;> simp [BUFFER_SIZE_FACTOR]
  · split_ifs <;> rfl
  · split_ifs <;> rfl
  · split_ifs <;> rfl
  · intro hc
    simp [hc]

/-- Restarting an active driver (cursors 7 and 3, rates 10) at rate 44100 with
a server that would now answer 48000: the cursors are reset, the capacity is
44100 and the target rate stays 10. -/
theorem start_resets_witness :
    (start (ring 10 7 3) 44100 (server 48000) (fun _ => 0) (fun _ => 0)).state.output_writep = 0 ∧
    (start (ring 10 7 3) 44100 (server 48000) (fun _ => 0) (fun _ => 0)).state.output_readp = 0 ∧
    (start (ring 10 7 3) 44100 (server 48000) (fun _ => 0)
      (fun _ => 0)).state.output_buffer_size = 44100 ∧
    (start (ring 10 7 3) 44100 (server 48000) (fun _ => 0)
      (fun _ => 0)).state.target_samplerate = 10 :=
  have h := start_resets (ring 10 7 3) 44100 (server 48000) (fun _ => 0) (fun _ => 0)
  ⟨h.1, h.2.1, h.2.2.1, (h.2.2.2.2.2.2 rfl).2.1⟩

/-- C11, single-writer cursors.  `play` leaves `output_readp` as it was,
whether the block is accepted or dropped; the callback leaves `output_writep`,
`output_buffer_size` and both channel buffers as they were, whether it reads
or returns on an underrun. -/
theorem single_writer_cursors (soxr : Resampler) (s : JackState) (buf : Nat → Int)
    (samples : Int) (n_out nframes : Nat) (d1 d2 : List ℚ) :
    (play s buf samples).output_readp = s.output_readp ∧
    (process_frames soxr s n_out nframes d1 d2).state.output_writep = s.output_writep ∧
    (process_frames soxr s n_out nframes d1 d2).state.output_buffer_size =
      s.output_buffer_size ∧
    (process_frames soxr s n_out nframes d1 d2).state.output_buffer_1 = s.output_buffer_1 ∧
    (process_frames soxr s n_out nframes d1 d2).state.output_buffer_2 = s.output_buffer_2 ∧
    (output_jack_process soxr s n_out d1 d2).state.output_writep = s.output_writep ∧
    (output_jack_process soxr s n_out d1 d2).state.output_buffer_size =
      s.output_buffer_size ∧
    (output_jack_process soxr s n_out d1 d2).state.output_buffer_1 = s.output_buffer_1 ∧
    (output_jack_process soxr s n_out d1 d2).state.output_buffer_2 = s.output_buffer_2 := by
  have hr : ∀ n : Nat,
      (process_frames soxr s n_out n d1 d2).state.output_writep = s.output_writep ∧
      (process_frames soxr s n_out n d1 d2).state.output_buffer_size = s.output_buffer_size ∧
      (process_frames soxr s n_out n d1 d2).state.output_buffer_1 = s.output_buffer_1 ∧
      (process_frames soxr s n_out n d1 d2).state.output_buffer_2 = s.output_buffer_2 := by
    intro n
    rw [process_frames_eq]
    by_cases hu : render_underrun s n
    · rw [if_pos hu]; exact ⟨rfl, rfl, rfl, rfl⟩
    · rw [if_neg hu]; exact ⟨rfl, rfl, rfl, rfl⟩
  have hp : (play s buf samples).output_readp = s.output_readp := by
    rw [play_eq]
    by_cases ho : play_overrun s samples
    · rw [if_pos ho]
    · rw [if_neg ho]; rfl
  obtain ⟨a1, a2, a3, a4⟩ := hr nframes
  obtain ⟨b1, b2, b3, b4⟩ :=
    hr (needed_source_frames n_out s.source_samplerate s.target_samplerate)
  exact ⟨hp, a1, a2, a3, a4, b1, b2, b3, b4⟩

/-- C12, exact-ratio frame count.  For rates `source ≥ 0` and `target > 0` and
a request of `n` frames with `n * source < 2 ^ 32` divisible by `target`, the
callback computes exactly `n * source / target` source frames; for source
44100, target 48000 and 480 frames that is 441. -/
theorem exact_ratio_frame_count (n : Nat) (src tgt : Int) (hsrc : 0 ≤ src) (htgt : 0 < tgt)
    (hdvd : tgt ∣ (n : Int) * src) (hlt : (n : Int) * src < 2 ^ 32) :
    ((needed_source_frames n src tgt : Nat) : Int) = (n : Int) * src / tgt ∧
    ((needed_source_frames n src tgt : Nat) : Int) * tgt = (n : Int) * src ∧
    needed_source_frames 480 44100 48000 = 441 := by
  have hnn : 0 ≤ (n : Int) * src := mul_nonneg (Int.ofNat_nonneg n) hsrc
  have h1 : ((needed_source_frames n src tgt : Nat) : Int) = (n : Int) * src / tgt := by
    rw [needed_source_frames_int, Int.emod_eq_of_lt hnn hlt]
    by_cases hbig : tgt < 2 ^ 32
    · rw [Int.emod_eq_of_lt (le_of_lt htgt) hbig]
    · have hz : (n : Int) * src = 0 := by
        obtain ⟨c, hc⟩ := hdvd
        have hc0 : c = 0 := by
          by_contra hne
          have hcpos : 0 < c := by
            rcases lt_trichotomy c 0 with h | h | h
            · have : tgt * c < 0 := mul_neg_of_pos_of_neg htgt h
              omega
            · exact absurd h hne
            · exact h
          have : tgt * 1 ≤ tgt * c := mul_le_mul_of_nonneg_left hcpos (le_of_lt htgt)
          omega
        rw [hc, hc0, mul_zero]
      rw [hz, Int.zero_ediv, Int.zero_ediv]
  refine ⟨h1, ?_, ?_⟩
  · rw [h1, Int.ediv_mul_cancel hdvd]
  · rw [needed_source_frames_eq]; decide

/-- The example of the specification: 480 frames at 48000 need 441 frames at
44100. -/
theorem exact_ratio_frame_count_witness :
    ((needed_source_frames 480 44100 48000 : Nat) : Int) = ((480 : Nat) : Int) * 44100 / 48000 ∧
    ((480 : Nat) : Int) * 44100 / 48000 = 441 :=
  ⟨(exact_ratio_frame_count 480 44100 48000 (by decide) (by decide) (by decide)
      (by decide)).1, by decide⟩

/-- C13, configuration range check.  `init` ends in `die` exactly when the
configuration file sets a buffer length outside `[0, 132300]` or a latency
offset outside `[-66150, 66150]`; otherwise it returns 0 with the stored
buffer length equal to the configured value (44100 when there is none) and
the stored latency offset equal to the configured value (0 when there is
none). -/
theorem init_range_check (config : Config) (portspec : Option String) (argv : List String) :
    (init config portspec argv = InitResult.died ↔
      ((∃ v, configured_length config = some v ∧ (v < 0 ∨ v > 132300)) ∨
       (∃ v, configured_offset config = some v ∧ (v < -66150 ∨ v > 66150)))) ∧
    (init config portspec argv ≠ InitResult.died →
      ∃ c p, init config portspec argv = InitResult.returned 0 c p ∧
        c.audio_backend_buffer_desired_length = (configured_length config).getD 44100 ∧
        c.audio_backend_latency_offset = (configured_offset config).getD 0) := by
  obtain ⟨cfg, len0, off0⟩ := config
  cases cfg with
  | none => simp [init, configured_length, configured_offset]
  | some file =>
    obtain ⟨name, len, off⟩ := file
    cases len with
    | none =>
      cases off with
      | none => simp [init, configured_length, configured_offset]
      | some o =>
        by_cases ho : o < -66150 ∨ o > 66150
        · simp [init, die, configured_length, configured_offset, ho]
        · simp [init, die, configured_length, configured_offset, ho]
    | some l =>
      by_cases hl : l < 0 ∨ l > 132300
      · simp [init, die, configured_length, configured_offset, hl]
      · cases off with
        | none => simp [init, die, configured_length, configured_offset, hl]
        | some o =>
          by_cases ho : o < -66150 ∨ o > 66150
          · simp [init, die, configured_length, configured_offset, hl, ho]
          · simp [init, die, configured_length, configured_offset, hl, ho]

/-- A buffer length of 132301 is fatal; 132300 with an offset of -66150 is
accepted and stored. -/
theorem init_range_check_witness :
    init (config_with (some 132301) none) none [] = InitResult.died ∧
    ∃ c p, init (config_with (some 132300) (some (-66150))) none [] =
        InitResult.returned 0 c p ∧
      c.audio_backend_buffer_desired_length =
        (configured_length (config_with (some 132300) (some (-66150)))).getD 44100 ∧
      c.audio_backend_latency_offset =
        (configured_offset (config_with (some 132300) (some (-66150)))).getD 0 :=
  ⟨(init_range_check (config_with (some 132301) none) none []).1.2
      (Or.inl ⟨132301, rfl, Or.inr (by decide)⟩),
   (init_range_check (config_with (some 132300) (some (-66150))) none []).2
      (by simp [init, config_with])⟩


/-- C14 as stated fails on the accepted path: with 2 frames buffered a render
of 1 frame reaches the resampler, and the operations the callback executes
begin with its own two `malloc` calls. -/
theorem accepted_render_allocates :
    (process_frames passthrough (ring 4 2 0) 1 1 [] []).resampled.isSome = true ∧
    callback_steps (ring 4 2 0) 1 =
      [Step.malloc Side.one 1, Step.malloc Side.two 1,
       Step.memcpy Side.one 0 0 1, Step.memcpy Side.two 0 0 1, Step.set_readp 1,
       Step.soxr_oneshot Side.one, Step.soxr_oneshot Side.two,
       Step.free Side.one, Step.free Side.two] := by
  constructor
  · rw [process_frames_eq, if_neg (by decide)]; rfl
  · rw [callback_steps_eq, if_neg (by decide)]
    simp [copy_steps, ring]

/-- C14, amended.  With the cursors in `[0, output_buffer_size)`: the memory
operations of the callback run without a memory error, leave exactly what
`process_frames` computes, and end with both scratch blocks freed.  On an
underrun the callback executes none of them, so it allocates nothing.  On
every call that passes the underrun checks it starts with its own two
`malloc` calls, for `out1` and `out2` with `nframes` samples each, followed
only by copies and cursor assignments, then the two resampler calls, then
the two `free` calls. -/
theorem callback_allocations (soxr : Resampler) (s : JackState) (n_out nframes : Nat)
    (d1 d2 : List ℚ) (hs : CursorsInRange s) :
    (∃ m, exec soxr n_out (callback_steps s nframes) (Machine.entry s d1 d2) = some m ∧
      m.result = process_frames soxr s n_out nframes d1 d2 ∧ m.out1 = none ∧ m.out2 = none) ∧
    (render_underrun s nframes → callback_steps s nframes = []) ∧
    (¬ render_underrun s nframes →
      ∃ copies : List Step,
        callback_steps s nframes =
          [Step.malloc Side.one nframes, Step.malloc Side.two nframes] ++ copies ++
            [Step.soxr_oneshot Side.one, Step.soxr_oneshot Side.two,
             Step.free Side.one, Step.free Side.two] ∧
        ∀ st ∈ copies, st.copies = true) := by
  refine ⟨?_, ?_, ?_⟩
  · rw [callback_steps_eq, process_frames_eq]
    by_cases hu : render_underrun s nframes
    · rw [if_pos hu, if_pos hu]
      exact ⟨Machine.entry s d1 d2, rfl, rfl, rfl, rfl⟩
    · rw [if_neg hu, if_neg hu]
      exact exec_copy_steps soxr s n_out nframes d1 d2 hs hu
  · intro hu
    rw [callback_steps_eq, if_pos hu]
  · intro hu
    rw [callback_steps_eq, if_neg hu]
    unfold copy_steps
    refine ⟨_, rfl, ?_⟩
    split_ifs <;> simp [Step.copies]

/-- An underrun (capacity 4, 1 frame buffered, 2 needed) executes no
operation; a render of 2 frames that wraps (cursors 1 and 3) runs inside its
two blocks and frees them. -/
theorem callback_allocations_witness :
    callback_steps (ring 4 1 0) 2 = [] ∧
    ∃ m, exec passthrough 2 (callback_steps (ring 4 1 3) 2)
        (Machine.entry (ring 4 1 3) [] []) = some m ∧
      m.result = process_frames passthrough (ring 4 1 3) 2 2 [] [] ∧
      m.out1 = none ∧ m.out2 = none :=
  ⟨(callback_allocations passthrough (ring 4 1 0) 2 2 [] [] (by decide)).2.1 (by decide),
   (callback_allocations passthrough (ring 4 1 3) 2 2 [] [] (by decide)).1⟩

/-- C15, overrun condition.  With the cursors in `[0, output_buffer_size)` and
`room = output_buffer_size - ((output_writep - output_readp) mod
output_buffer_size)`: one of the overrun checks of `play` fires exactly when
`samples > room`.  A block with `samples > room` is dropped: `play` returns the
state as it was.  A block of `0 ≤ samples ≤ room` frames is kept: afterwards
`output_writep` is `(output_writep + samples) mod output_buffer_size`,
`output_readp` is unchanged, and for each `j < samples` the buffers hold
`block[2j] / 32767` and `block[2j+1] / 32767` at index
`(output_writep + j) mod output_buffer_size`.  For a write that does not run
past the end of storage the block is dropped exactly when `output_readp` lies
strictly between `output_writep` and `output_writep + samples`. -/
theorem overrun_condition (s : JackState) (buf : Nat → Int) (samples : Int)
    (hs : CursorsInRange s) :
    (play_overrun s samples ↔
      samples > s.output_buffer_size -
        (s.output_writep - s.output_readp) % s.output_buffer_size) ∧
    (samples > s.output_buffer_size -
        (s.output_writep - s.output_readp) % s.output_buffer_size →
      play s buf samples = s) ∧
    (0 ≤ samples →
      samples ≤ s.output_buffer_size -
        (s.output_writep - s.output_readp) % s.output_buffer_size →
      (play s buf samples).output_writep =
        (s.output_writep + samples) % s.output_buffer_size ∧
      (play s buf samples).output_readp = s.output_readp ∧
      ∀ j : Nat, (j : Int) < samples →
        (play s buf samples).output_buffer_1
            ((s.output_writep + (j : Int)) % s.output_buffer_size) =
          (buf (2 * j) : ℚ) / 32767 ∧
        (play s buf samples).output_buffer_2
            ((s.output_writep + (j : Int)) % s.output_buffer_size) =
          (buf (2 * j + 1) : ℚ) / 32767) ∧
    (s.output_writep + samples ≤ s.output_buffer_size →
      ((play_overrun s samples ↔
          s.output_writep < s.output_readp ∧ s.output_readp < s.output_writep + samples) ∧
       (s.output_writep < s.output_readp ∧ s.output_readp < s.output_writep + samples →
          play s buf samples = s))) := by
  unfold CursorsInRange at hs
  have hgap := cursor_gap s.output_writep s.output_readp s.output_buffer_size
    hs.1 hs.2.1 hs.2.2.1 hs.2.2.2
  have hiff : play_overrun s samples ↔
      samples > s.output_buffer_size -
        (s.output_writep - s.output_readp) % s.output_buffer_size := by
    rw [hgap]
    unfold play_overrun play_overrun1 play_overrun2
    split_ifs <;> omega
  have hfit : s.output_writep + samples ≤ s.output_buffer_size →
      (play_overrun s samples ↔
        s.output_writep < s.output_readp ∧ s.output_readp < s.output_writep + samples) := by
    intro hle
    unfold play_overrun play_overrun1 play_overrun2
    omega
  refine ⟨hiff, ?_, ?_, ?_⟩
  · intro h
    rw [play_eq, if_pos (hiff.2 h)]
  · intro hn hroom
    have ho : ¬ play_overrun s samples := fun h => by
      have := hiff.1 h
      omega
    have hle : samples ≤ s.output_buffer_size := by
      have h0 := Int.emod_nonneg (s.output_writep - s.output_readp)
        (ne_of_gt (show (0 : Int) < s.output_buffer_size by omega))
      omega
    rw [play_eq, if_neg ho]
    refine ⟨?_, rfl, ?_⟩
    · rw [play_store_writep]
      unfold play_overrun play_overrun1 play_overrun2 at ho
      split_ifs with h1 h2
      · have e : s.output_writep + samples =
            (samples - (s.output_buffer_size - s.output_writep)) + s.output_buffer_size := by
          omega
        rw [e, Int.add_emod_self, Int.emod_eq_of_lt (by omega) (by omega)]
      · rw [h2, Int.emod_self]
      · rw [Int.emod_eq_of_lt (by omega) (by omega)]
    · intro j hj
      rw [play_store_ring_1 s buf samples j hs.1 hs.2.1 hle hj,
        play_store_ring_2 s buf samples j hs.1 hs.2.1 hle hj, sample_to_float_eq,
        sample_to_float_eq, mul_comm]
      exact ⟨rfl, rfl⟩
  · intro hle
    refine ⟨hfit hle, ?_⟩
    intro h
    rw [play_eq, if_pos ((hfit hle).2 h)]

/-- Capacity 10, `output_writep = 2`, `output_readp = 5`: the room is 3.  A block
of 4 frames is dropped; a block of 3 frames is kept, moves `output_writep` to
5 and puts its second frame at index 3. -/
theorem overrun_condition_witness :
    play (ring 10 2 5) (fun k => (k : Int)) 4 = ring 10 2 5 ∧
    ((play (ring 10 2 5) (fun k => (k : Int)) 3).output_writep =
        ((ring 10 2 5).output_writep + 3) % (ring 10 2 5).output_buffer_size ∧
      ((ring 10 2 5).output_writep + 3) % (ring 10 2 5).output_buffer_size = 5) ∧
    ((play (ring 10 2 5) (fun k => (k : Int)) 3).output_buffer_1
        (((ring 10 2 5).output_writep + ((1 : Nat) : Int)) %
          (ring 10 2 5).output_buffer_size) =
      (((2 * 1 : Nat) : Int) : ℚ) / 32767 ∧
     (play (ring 10 2 5) (fun k => (k : Int)) 3).output_buffer_2
        (((ring 10 2 5).output_writep + ((1 : Nat) : Int)) %
          (ring 10 2 5).output_buffer_size) =
      (((2 * 1 + 1 : Nat) : Int) : ℚ) / 32767) :=
  ⟨(overrun_condition (ring 10 2 5) (fun k => (k : Int)) 4 (by decide)).2.1 (by decide),
   ⟨((overrun_condition (ring 10 2 5) (fun k => (k : Int)) 3 (by decide)).2.2.1
      (by decide) (by decide)).1, by decide⟩,
   ((overrun_condition (ring 10 2 5) (fun k => (k : Int)) 3 (by decide)).2.2.1
      (by decide) (by decide)).2.2 1 (by decide)⟩

/-- C16, write placement.  After a `play` call that passes both overrun checks,
from cursors in `[0, output_buffer_size)`: for each `j < samples` the left
buffer holds `block[2j] / 32767` and the right buffer `block[2j+1] / 32767` at
index `(output_writep + j) mod output_buffer_size`, and every index that is
not of this form holds in both buffers what it held before. -/
theorem write_placement (s : JackState) (buf : Nat → Int) (samples : Int)
    (hs : CursorsInRange s) (ho : ¬ play_overrun s samples) :
    (∀ j : Nat, (j : Int) < samples →
      (play s buf samples).output_buffer_1
          ((s.output_writep + (j : Int)) % s.output_buffer_size) =
        (buf (2 * j) : ℚ) / 32767 ∧
      (play s buf samples).output_buffer_2
          ((s.output_writep + (j : Int)) % s.output_buffer_size) =
        (buf (2 * j + 1) : ℚ) / 32767) ∧
    (∀ x : Int,
      (∀ j : Nat, (j : Int) < samples →
        x ≠ (s.output_writep + (j : Int)) % s.output_buffer_size) →
      (play s buf samples).output_buffer_1 x = s.output_buffer_1 x ∧
      (play s buf samples).output_buffer_2 x = s.output_buffer_2 x) := by
  rw [play_eq, if_neg ho]
  unfold CursorsInRange at hs
  unfold play_overrun play_overrun1 play_overrun2 at ho
  have hle : samples ≤ s.output_buffer_size := by omega
  constructor
  · intro j hj
    rw [play_store_ring_1 s buf samples j hs.1 hs.2.1 hle hj,
      play_store_ring_2 s buf samples j hs.1 hs.2.1 hle hj, sample_to_float_eq,
      sample_to_float_eq, mul_comm]
    exact ⟨rfl, rfl⟩
  · intro x hx
    have hout : ∀ j : Int, 0 ≤ j → j < samples →
        x ≠ (s.output_writep + j) % s.output_buffer_size := by
      intro j hj0 hj
      have := hx j.toNat (by omega)
      rwa [Int.toNat_of_nonneg hj0] at this
    rw [play_store_buffer_1, play_store_buffer_2]
    by_cases hw : s.output_writep + samples > s.output_buffer_size
    · have e1 : ¬ (0 ≤ x ∧ x < samples - (s.output_buffer_size - s.output_writep)) := by
        intro hc
        apply hout (x + s.output_buffer_size - s.output_writep) (by omega) (by omega)
        have e : s.output_writep + (x + s.output_buffer_size - s.output_writep) =
            x + s.output_buffer_size := by ring
        rw [e, Int.add_emod_self, Int.emod_eq_of_lt (by omega) (by omega)]
      have e2 : ¬ (s.output_writep ≤ x ∧ x < s.output_buffer_size) := by
        intro hc
        apply hout (x - s.output_writep) (by omega) (by omega)
        have e : s.output_writep + (x - s.output_writep) = x := by ring
        rw [e, Int.emod_eq_of_lt (by omega) (by omega)]
      simp only [hw, e1, e2, if_true, if_false, and_self]
    · have e3 : ¬ (s.output_writep ≤ x ∧ x < s.output_writep + samples) := by
        intro hc
        apply hout (x - s.output_writep) (by omega) (by omega)
        have e : s.output_writep + (x - s.output_writep) = x := by ring
        rw [e, Int.emod_eq_of_lt (by omega) (by omega)]
      simp only [hw, e3, if_false, and_self]

/-- Three frames written at offset 3 of a buffer of 4: frame 1 lands at index
0, and index 2 is not written. -/
theorem write_placement_witness :
    ((play (ring 4 3 3) (fun k => (k : Int)) 3).output_buffer_1
        (((ring 4 3 3).output_writep + ((1 : Nat) : Int)) % (ring 4 3 3).output_buffer_size) =
      (((2 * 1 : Nat) : Int) : ℚ) / 32767 ∧
     (play (ring 4 3 3) (fun k => (k : Int)) 3).output_buffer_2
        (((ring 4 3 3).output_writep + ((1 : Nat) : Int)) % (ring 4 3 3).output_buffer_size) =
      (((2 * 1 + 1 : Nat) : Int) : ℚ) / 32767) ∧
    (ring 4 3 3).output_writep + ((1 : Nat) : Int) = 4 :=
  ⟨(write_placement (ring 4 3 3) (fun k => (k : Int)) 3 (by decide) (by decide)).1 1
      (by decide), by decide⟩

/-- C17, actual underrun condition.  With the cursors in
`[0, output_buffer_size)`, the callback passes its underrun checks exactly
when `nframes ≤ output_buffer_size - ((output_readp - output_writep) mod
output_buffer_size)`; it then reaches the resampler and sets `output_readp`
to `(output_readp + nframes) mod output_buffer_size`; otherwise it returns
with the state and both destination buffers as they were.  At equal cursors
the callback therefore reads any `nframes ≤ output_buffer_size` (a full
buffer), while `play` accepts any `samples ≤ output_buffer_size` (an empty
buffer). -/
theorem render_condition (soxr : Resampler) (s : JackState) (samples : Int)
    (n_out nframes : Nat) (d1 d2 : List ℚ) (hs : CursorsInRange s) :
    (¬ render_underrun s nframes ↔
      (nframes : Int) ≤ s.output_buffer_size -
        (s.output_readp - s.output_writep) % s.output_buffer_size) ∧
    (¬ render_underrun s nframes →
      (process_frames soxr s n_out nframes d1 d2).resampled.isSome = true ∧
      (process_frames soxr s n_out nframes d1 d2).state.output_readp =
        (s.output_readp + (nframes : Int)) % s.output_buffer_size) ∧
    (render_underrun s nframes →
      process_frames soxr s n_out nframes d1 d2 =
        { state := s, jack_out1 := d1, jack_out2 := d2, resampled := none }) ∧
    (s.output_writep = s.output_readp →
      (¬ render_underrun s nframes ↔ (nframes : Int) ≤ s.output_buffer_size) ∧
      (¬ play_overrun s samples ↔ samples ≤ s.output_buffer_size)) := by
  unfold CursorsInRange at hs
  have hgap := cursor_gap s.output_readp s.output_writep s.output_buffer_size
    hs.2.2.1 hs.2.2.2 hs.1 hs.2.1
  refine ⟨?_, ?_, ?_, ?_⟩
  · rw [hgap]
    unfold render_underrun render_underrun1 render_underrun2
    split_ifs <;> omega
  · intro hu
    rw [process_frames_eq, if_neg hu]
    refine ⟨rfl, ?_⟩
    unfold render_underrun render_underrun1 render_underrun2 at hu
    simp only [render_copy]
    split_ifs with h1 h2
    · have e : s.output_readp + (nframes : Int) =
          ((nframes : Int) - (s.output_buffer_size - s.output_readp)) +
            s.output_buffer_size := by
        omega
      rw [e, Int.add_emod_self, Int.emod_eq_of_lt (by omega) (by omega)]
    · rw [h2, Int.emod_self]
    · rw [Int.emod_eq_of_lt (by omega) (by omega)]
  · intro hu
    rw [process_frames_eq, if_pos hu]
  · intro heq
    unfold render_underrun render_underrun1 render_underrun2 play_overrun play_overrun1
      play_overrun2
    omega

/-- Right after a start with capacity 4 the callback reads 4 frames although
none was fed, and `play` accepts 4 frames; 5 are refused by both. -/
theorem render_condition_witness :
    (¬ render_underrun (ring 4 0 0) 4 ↔ ((4 : Nat) : Int) ≤ (ring 4 0 0).output_buffer_size) ∧
    (¬ play_overrun (ring 4 0 0) 4 ↔ (4 : Int) ≤ (ring 4 0 0).output_buffer_size) ∧
    process_frames passthrough (ring 4 0 0) 5 5 [] [] =
      { state := ring 4 0 0, jack_out1 := [], jack_out2 := [], resampled := none } :=
  ⟨((render_condition passthrough (ring 4 0 0) 4 4 4 [] [] (by decide)).2.2.2 rfl).1,
   ((render_condition passthrough (ring 4 0 0) 4 4 4 [] [] (by decide)).2.2.2 rfl).2,
   (render_condition passthrough (ring 4 0 0) 4 5 5 [] [] (by decide)).2.2.1 (by decide)⟩

/-- C18, actual frame-count arithmetic.  For any requested frame count, any
source rate and a target rate that is a positive `int`, the callback's frame
count is the truncating quotient `((n_out_frames * source) mod 2 ^ 32) div
target`; adding `0.5` to that quotient and truncating gives the quotient
back, so the count never exceeds the exact quotient of the wrapped product by
the target rate. -/
theorem frame_count_truncates (n_out_frames : Nat) (src tgt : Int) (htgt : 0 < tgt)
    (hint : tgt ≤ INT_MAX) :
    ((needed_source_frames n_out_frames src tgt : Nat) : Int) =
      ((n_out_frames : Int) * src) % 2 ^ 32 / tgt ∧
    Int.floor (((((n_out_frames : Int) * src) % 2 ^ 32 / tgt : Int) : ℚ) + 1 / 2) =
      ((n_out_frames : Int) * src) % 2 ^ 32 / tgt ∧
    ((needed_source_frames n_out_frames src tgt : Nat) : ℚ) ≤
      ((((n_out_frames : Int) * src) % 2 ^ 32 : Int) : ℚ) / (tgt : ℚ) := by
  have ht : tgt % 2 ^ 32 = tgt := by
    unfold INT_MAX at hint
    exact Int.emod_eq_of_lt (le_of_lt htgt) (by omega)
  have h1 : ((needed_source_frames n_out_frames src tgt : Nat) : Int) =
      ((n_out_frames : Int) * src) % 2 ^ 32 / tgt := by
    rw [needed_source_frames_int, ht]
  have hq0 : 0 ≤ ((n_out_frames : Int) * src) % 2 ^ 32 / tgt :=
    Int.ediv_nonneg (Int.emod_nonneg _ (by norm_num)) (le_of_lt htgt)
  refine ⟨h1, ?_, ?_⟩
  · rw [Int.floor_eq_iff]
    constructor
    · linarith
    · linarith
  · have hc : ((needed_source_frames n_out_frames src tgt : Nat) : ℚ) =
        (((((n_out_frames : Int) * src) % 2 ^ 32 / tgt : Int)) : ℚ) := by
      rw [← h1]; norm_cast
    rw [hc, le_div_iff₀ (by exact_mod_cast htgt)]
    have hm := Int.ediv_mul_le (((n_out_frames : Int) * src) % 2 ^ 32) (ne_of_gt htgt)
    exact_mod_cast hm

/-- For source 3, target 2 and one frame the exact quotient is 1.5 and the
callback needs 1 frame. -/
theorem frame_count_truncates_witness :
    ((needed_source_frames 1 3 2 : Nat) : Int) = (((1 : Nat) : Int) * 3) % 2 ^ 32 / 2 ∧
    (((1 : Nat) : Int) * 3) % 2 ^ 32 / 2 = 1 :=
  ⟨(frame_count_truncates 1 3 2 (by decide) (by decide)).1, by decide⟩

end AudioJack
